import Mathlib

/-!
dockercleaner: selection, confirmation and action of the cleanup run.

A shallow embedding of `dockercleaner.go`.  The program is one linear
procedure over an external Docker daemon, standard input and the log, so the
embedding passes the daemon state and the unread standard input explicitly
and returns, next to the Go result, the list of events the code produced in
program order: daemon calls together with what they returned, console
output, reads of standard input and log lines.

What is not code of the repository is a parameter of the model:
* `Daemon σ`: the operations of `dockerclient.DockerClient` the program uses,
  as state transformers over an arbitrary daemon state `σ`;
* `Lib`: `time.ParseDuration` and the conversion `int64(d.Seconds())`.

`fmt.Scanln(&answer)` is embedded for one string argument (`scanln`).
-/

namespace Dockercleaner

/-! ## Data model -/

/-- Go `error` values that are not nil, identified with their message. -/
abbrev GoError := String

/-- Go `time.Duration`: a number of nanoseconds. -/
abbrev Duration := Int

/-- The fields of `dockerclient.Container` the program reads. -/
structure Container where
  Id : String
  Created : Int
  Status : String
deriving DecidableEq, Repr

/-- The fields of `dockerclient.Image` the program reads. -/
structure Image where
  Id : String
  Created : Int
  RepoTags : List String
deriving DecidableEq, Repr

/-- One entry of the answer of `RemoveImage` (`dockerclient.ImageDelete`). -/
structure ImageDelete where
  Deleted : String
  Untagged : String
deriving DecidableEq, Repr

/-- The package-level flag variables after `flag.Parse()`. -/
structure Options where
  cleanOld : String
  cleanNone : Bool
  stopOld : String
  dockerURL : String
  noConfirm : Bool
deriving DecidableEq, Repr

/-- Arguments of the formatted print and log calls. -/
inductive Val
  | str (s : String)
  | int (i : Int)
  | strs (l : List String)
  | dur (d : Duration)
  | err (e : GoError)
deriving DecidableEq, Repr

/-- What the program does, in program order.  A daemon call carries what the
daemon returned.  `stopCotainers` and `deleteImage` mark the entry of the two
action functions with the list they were handed. -/
inductive Event
  | usage
  | newDockerClient (url : String) (err : Option GoError)
  | info (systemTime : Int) (err : Option GoError)
  | listContainers (all size : Bool) (filters : String) (running : List Container)
      (err : Option GoError)
  | listImages (images : List Image) (err : Option GoError)
  | stopContainer (id : String) (timeout : Int) (err : Option GoError)
  | removeImage (id : String) (imageDelete : List ImageDelete) (err : Option GoError)
  | printf (format : String) (args : List Val)
  | scanln (answer : String)
  | logPrintf (format : String) (args : List Val)
  | logFatalf (format : String) (args : List Val)
  | stopCotainers (imageIDs : List String)
  | deleteImage (imageIDs : List String)
deriving DecidableEq, Repr

/-- How `main` ends: it returns (exit status 0) or `log.Fatalf` ends the
process (exit status 1). -/
inductive Exit
  | returned
  | fatal
deriving DecidableEq, Repr

/-- The daemon operations behind `*dockerclient.DockerClient`, each a
transformer of the daemon state returning the Go result pair. -/
structure Daemon (σ : Type) where
  newDockerClient : String → σ → Option GoError × σ
  info : σ → (Int × Option GoError) × σ
  listContainers : Bool → Bool → String → σ → (List Container × Option GoError) × σ
  listImages : σ → (List Image × Option GoError) × σ
  stopContainer : String → Int → σ → Option GoError × σ
  removeImage : String → σ → (List ImageDelete × Option GoError) × σ

/-- The two standard-library computations on durations: `time.ParseDuration`
and `int64(d.Seconds())`. -/
structure Lib where
  parseDuration : String → Duration × Option GoError
  seconds : Duration → Int

/-- The world outside the process: the daemon and the unread standard input. -/
structure World (σ : Type) where
  daemon : σ
  stdin : List Char

/-- Result of running a piece of the program: the Go value, the world after
it and the events it produced. -/
structure Res (σ α : Type) where
  val : α
  world : World σ
  events : List Event

/-! ## Machine integers -/

/-- Reduction of an integer to the `int64` range (two's complement). -/
def wrapInt64 (x : Int) : Int := (x + 2 ^ 63) % 2 ^ 64 - 2 ^ 63

/-- Go `a - b` on `int64`. -/
def subInt64 (a b : Int) : Int := wrapInt64 (a - b)

/-! ## `fmt.Scanln(&answer)` -/

/-- The `isSpace` table of package `fmt`. -/
def isSpace (c : Char) : Bool :=
  let r := c.toNat
  (0x0009 ≤ r && r ≤ 0x000d) || r == 0x0020 || r == 0x0085 || r == 0x00a0 || r == 0x1680 ||
  (0x2000 ≤ r && r ≤ 0x200a) || (0x2028 ≤ r && r ≤ 0x2029) || r == 0x202f || r == 0x205f ||
  r == 0x3000

/-- The newline rune. -/
def newline : Char := Char.ofNat 10

/-- The carriage-return rune. -/
def carriageReturn : Char := Char.ofNat 13

/-- `SkipSpace` when a newline is not a space: the unread input after the
leading blanks, or `none` after the error "unexpected newline" (the newline
is consumed). -/
def skipSpace : List Char → Option (List Char) × List Char
  | [] => (some [], [])
  | c :: rest =>
    if c = carriageReturn ∧ rest.head? = some newline then skipSpace rest
    else if c = newline then (none, rest)
    else if isSpace c then skipSpace rest
    else (some (c :: rest), c :: rest)

/-- The runes of the next word: `token(true, notSpace)`. -/
def token : List Char → List Char × List Char
  | [] => ([], [])
  | c :: rest =>
    if isSpace c then ([], c :: rest)
    else (c :: (token rest).1, (token rest).2)

/-- The check after the last operand of `Scanln`: blanks are read up to and
including the newline; a rune that is not a blank is read and ends the scan
with the error "expected newline". -/
def expectNewline : List Char → List Char
  | [] => []
  | c :: rest =>
    if c = newline then rest
    else if isSpace c then expectNewline rest
    else rest

/-- Effect of `fmt.Scanln(&answer)` on a fresh `answer`, after package `fmt`
of the Go standard library: leading blanks are skipped, the next word is
stored, and the rest of the line is checked.  The result is the value of
`answer` afterwards and the input left unread.  The error `Scanln` returns is
dropped, as the program drops it. -/
def scanln (stdin : List Char) : String × List Char :=
  match skipSpace stdin with
  | (none, rest) => ("", rest)
  | (some [], rest) => ("", rest)
  | (some (c :: cs), _) =>
    (String.mk (token (c :: cs)).1, expectNewline (token (c :: cs)).2)

/-! ## The program -/

variable {σ : Type}

/-- The loop of `stopCotainers` over the ids, `errors` being the errors
appended so far. -/
def stopLoop (D : Daemon σ) : List String → List GoError → World σ → Res σ (List GoError)
  | [], errors, w => ⟨errors, w, []⟩
  | imageID :: rest, errors, w =>
    let stopErr := (D.stopContainer imageID 10 w.daemon).1
    let w1 : World σ := ⟨(D.stopContainer imageID 10 w.daemon).2, w.stdin⟩
    match stopErr with
    | some e =>
      let r := stopLoop D rest (errors ++ [e]) w1
      ⟨r.val, r.world, Event.stopContainer imageID 10 (some e) :: r.events⟩
    | none =>
      let r := stopLoop D rest errors w1
      ⟨r.val, r.world,
        Event.stopContainer imageID 10 none ::
          Event.logPrintf "STOPPED: %v" [Val.str imageID] :: r.events⟩

/-- Go `func stopCotainers(docker, imageIDs) []error`; the nil slice is the
empty list. -/
def stopCotainers (D : Daemon σ) (noConfirm : Bool) (imageIDs : List String)
    (w : World σ) : Res σ (List GoError) :=
  if noConfirm = false then
    let answer := (scanln w.stdin).1
    let w1 : World σ := ⟨w.daemon, (scanln w.stdin).2⟩
    let asked : List Event :=
      [Event.stopCotainers imageIDs,
       Event.printf "This will stop %v images\n" [Val.int imageIDs.length],
       Event.printf "Do you want to continue? (yes/no)\n" [],
       Event.scanln answer]
    if answer ≠ "yes" then
      ⟨[], w1, asked ++ [Event.printf "%v" [Val.str answer]]⟩
    else
      let r := stopLoop D imageIDs [] w1
      ⟨if r.val.length > 0 then r.val else [], r.world, asked ++ r.events⟩
  else
    let r := stopLoop D imageIDs [] w
    ⟨if r.val.length > 0 then r.val else [], r.world, Event.stopCotainers imageIDs :: r.events⟩

/-- The inner loop of `deleteImage` over what `RemoveImage` returned. -/
def logDeleted : List ImageDelete → List Event
  | [] => []
  | id :: rest =>
    (if id.Deleted ≠ "" then [Event.logPrintf "DELETED: %v" [Val.str id.Deleted]] else []) ++
    (if id.Untagged ≠ "" then [Event.logPrintf "UNTAGGED: %#v" [Val.str id.Untagged]] else []) ++
    logDeleted rest

/-- The loop of `deleteImage` over the ids, `errors` being the errors
appended so far. -/
def deleteLoop (D : Daemon σ) : List String → List GoError → World σ → Res σ (List GoError)
  | [], errors, w => ⟨errors, w, []⟩
  | imageID :: rest, errors, w =>
    let imageDelete := (D.removeImage imageID w.daemon).1.1
    let deleteErr := (D.removeImage imageID w.daemon).1.2
    let w1 : World σ := ⟨(D.removeImage imageID w.daemon).2, w.stdin⟩
    let errors1 := match deleteErr with
      | some e => errors ++ [e]
      | none => errors
    let r := deleteLoop D rest errors1 w1
    ⟨r.val, r.world,
      Event.removeImage imageID imageDelete deleteErr :: (logDeleted imageDelete ++ r.events)⟩

/-- Go `func deleteImage(docker, imageIDs) []error`; the nil slice is the
empty list. -/
def deleteImage (D : Daemon σ) (noConfirm : Bool) (imageIDs : List String)
    (w : World σ) : Res σ (List GoError) :=
  if noConfirm = false then
    let answer := (scanln w.stdin).1
    let w1 : World σ := ⟨w.daemon, (scanln w.stdin).2⟩
    let asked : List Event :=
      [Event.deleteImage imageIDs,
       Event.printf "This will delete %v images\n" [Val.int imageIDs.length],
       Event.printf "Do you want to continue? (yes/no)\n" [],
       Event.scanln answer]
    if answer ≠ "yes" then
      ⟨[], w1, asked ++ [Event.printf "%v" [Val.str answer]]⟩
    else
      let r := deleteLoop D imageIDs [] w1
      ⟨if r.val.length > 0 then r.val else [], r.world, asked ++ r.events⟩
  else
    let r := deleteLoop D imageIDs [] w
    ⟨if r.val.length > 0 then r.val else [], r.world, Event.deleteImage imageIDs :: r.events⟩

/-- The loop of `main` over the running containers (lines 126-133): the
value of `toStop` after it and the log lines, `threshold` being
`int64(durationRunning.Seconds())`. -/
def selectContainers (systemTime threshold : Int) :
    List Container → List String → List String × List Event
  | [], toStop => (toStop, [])
  | c :: rest, toStop =>
    let containerAge := subInt64 systemTime c.Created
    if containerAge > threshold then
      let r := selectContainers systemTime threshold rest (toStop ++ [c.Id])
      (r.1, Event.logPrintf "%v" [Val.int containerAge] ::
        Event.logPrintf "Going to stop container %v, %v" [Val.str c.Id, Val.str c.Status] :: r.2)
    else
      let r := selectContainers systemTime threshold rest toStop
      (r.1, Event.logPrintf "%v" [Val.int containerAge] :: r.2)

/-- The loop of `main` over the images under the age rule (lines 159-165). -/
def selectOldImages (systemTime : Int) (duration : Duration) (threshold : Int) :
    List Image → List String → List String × List Event
  | [], toDelete => (toDelete, [])
  | image :: rest, toDelete =>
    let imageAge := subInt64 systemTime image.Created
    if imageAge > threshold then
      let r := selectOldImages systemTime duration threshold rest (toDelete ++ [image.Id])
      (r.1, Event.logPrintf "Going to delete %v (%v) because image is older then  %v"
        [Val.str image.Id, Val.strs image.RepoTags, Val.dur duration] :: r.2)
    else
      selectOldImages systemTime duration threshold rest toDelete

/-- The loop of `main` over the images under the untagged rule (lines
170-175). -/
def selectUntagged : List Image → List String → List String × List Event
  | [], toDelete => (toDelete, [])
  | image :: rest, toDelete =>
    if image.RepoTags.length = 1 ∧ image.RepoTags[0]? = some "<none>:<none>" then
      let r := selectUntagged rest (toDelete ++ [image.Id])
      (r.1, Event.logPrintf "Going to delete %v (%v) becouse it is not tagged"
        [Val.str image.Id, Val.strs image.RepoTags] :: r.2)
    else
      selectUntagged rest toDelete

/-- The logging of the errors an action function returned (lines 136-140 and
181-185). -/
def logErrors (errs : List GoError) : List Event :=
  errs.map (fun e => Event.logPrintf "%v" [Val.err e])

/-- Lines 114-141 of `main`, "Stop old containers"; `Exit.returned` stands
for falling through to line 143. -/
def stopOldContainers (lib : Lib) (D : Daemon σ) (o : Options) (systemTime : Int)
    (w : World σ) : Res σ Exit :=
  if o.stopOld ≠ "" then
    let durationRunning := (lib.parseDuration o.stopOld).1
    match (lib.parseDuration o.stopOld).2 with
    | some e => ⟨Exit.fatal, w, [Event.logFatalf "%v" [Val.err e]]⟩
    | none =>
      let announce :=
        Event.logPrintf "Stoppping containers that are running longer than: %v"
          [Val.dur durationRunning]
      let running := (D.listContainers false false "" w.daemon).1.1
      let runningErr := (D.listContainers false false "" w.daemon).1.2
      let w1 : World σ := ⟨(D.listContainers false false "" w.daemon).2, w.stdin⟩
      let listed := Event.listContainers false false "" running runningErr
      match runningErr with
      | some e => ⟨Exit.fatal, w1, [announce, listed, Event.logFatalf "%v" [Val.err e]]⟩
      | none =>
        let sel := selectContainers systemTime (lib.seconds durationRunning) running []
        let r := stopCotainers D o.noConfirm sel.1 w1
        ⟨Exit.returned, r.world, [announce, listed] ++ sel.2 ++ r.events ++ logErrors r.val⟩
  else ⟨Exit.returned, w, []⟩

/-- Lines 168-186 of `main`: the untagged rule and the deletion, `toDelete`
being what the age rule left. -/
def deleteSelected (D : Daemon σ) (o : Options) (images : List Image)
    (toDelete : List String) (w : World σ) : Res σ Exit :=
  let sel := if o.cleanNone = true then selectUntagged images toDelete else (toDelete, [])
  if o.cleanOld ≠ "" ∨ o.cleanNone = true then
    let r := deleteImage D o.noConfirm sel.1 w
    ⟨Exit.returned, r.world, sel.2 ++ r.events ++ logErrors r.val⟩
  else ⟨Exit.returned, w, sel.2⟩

/-- Lines 152-186 of `main`: the age rule, then `deleteSelected`. -/
def cleanListed (lib : Lib) (D : Daemon σ) (o : Options) (systemTime : Int)
    (images : List Image) (w : World σ) : Res σ Exit :=
  if o.cleanOld ≠ "" then
    let duration := (lib.parseDuration o.cleanOld).1
    match (lib.parseDuration o.cleanOld).2 with
    | some e => ⟨Exit.fatal, w, [Event.logFatalf "%v" [Val.err e]]⟩
    | none =>
      let old := selectOldImages systemTime duration (lib.seconds duration) images []
      let r := deleteSelected D o images old.1 w
      ⟨r.val, r.world, old.2 ++ r.events⟩
  else deleteSelected D o images [] w

/-- Lines 143-186 of `main`: the image listing, fetched only when images are
cleaned, then `cleanListed`. -/
def cleanImages (lib : Lib) (D : Daemon σ) (o : Options) (systemTime : Int)
    (w : World σ) : Res σ Exit :=
  if o.cleanOld ≠ "" ∨ o.cleanNone = true then
    let images := (D.listImages w.daemon).1.1
    let errorList := (D.listImages w.daemon).1.2
    let w1 : World σ := ⟨(D.listImages w.daemon).2, w.stdin⟩
    let listed := Event.listImages images errorList
    match errorList with
    | some e => ⟨Exit.fatal, w1, [listed, Event.logFatalf "%v" [Val.err e]]⟩
    | none =>
      let r := cleanListed lib D o systemTime images w1
      ⟨r.val, r.world, listed :: r.events⟩
  else cleanListed lib D o systemTime [] w

/-- Lines 114-186 of `main`: everything after the system time is known. -/
def cleanup (lib : Lib) (D : Daemon σ) (o : Options) (systemTime : Int)
    (w : World σ) : Res σ Exit :=
  let r1 := stopOldContainers lib D o systemTime w
  match r1.val with
  | Exit.fatal => ⟨Exit.fatal, r1.world, r1.events⟩
  | Exit.returned =>
    let r2 := cleanImages lib D o systemTime r1.world
    ⟨r2.val, r2.world, r1.events ++ r2.events⟩

/-- Go `func main()`, after `flag.Parse()` has filled the options. -/
def main (lib : Lib) (D : Daemon σ) (o : Options) (w : World σ) : Res σ Exit :=
  if o.cleanNone = false ∧ o.cleanOld = "" ∧ o.stopOld = "" then
    ⟨Exit.returned, w, [Event.usage]⟩
  else
    let dockerErr := (D.newDockerClient o.dockerURL w.daemon).1
    let w1 : World σ := ⟨(D.newDockerClient o.dockerURL w.daemon).2, w.stdin⟩
    let connected := Event.newDockerClient o.dockerURL dockerErr
    match dockerErr with
    | some e => ⟨Exit.fatal, w1, [connected, Event.logFatalf "%v\n" [Val.err e]]⟩
    | none =>
      let systemTime := (D.info w1.daemon).1.1
      let infoErr := (D.info w1.daemon).1.2
      let w2 : World σ := ⟨(D.info w1.daemon).2, w1.stdin⟩
      let informed := Event.info systemTime infoErr
      match infoErr with
      | some e => ⟨Exit.fatal, w2, [connected, informed, Event.logFatalf "%v\n" [Val.err e]]⟩
      | none =>
        let r := cleanup lib D o systemTime w2
        ⟨r.val, r.world, connected :: informed :: r.events⟩

/-! ## Reading the events of a run -/

/-- The lists handed to `stopCotainers`, one per call. -/
def stopArgs (evs : List Event) : List (List String) :=
  evs.filterMap fun e => match e with
    | Event.stopCotainers ids => some ids
    | _ => none

/-- The lists handed to `deleteImage`, one per call. -/
def deleteArgs (evs : List Event) : List (List String) :=
  evs.filterMap fun e => match e with
    | Event.deleteImage ids => some ids
    | _ => none

/-- A daemon operation, without what it returned. -/
inductive Call
  | newDockerClient (url : String)
  | info
  | listContainers (all size : Bool) (filters : String)
  | listImages
  | stopContainer (id : String) (timeout : Int)
  | removeImage (id : String)
deriving DecidableEq, Repr

/-- The daemon operation an event is, if it is one. -/
def Event.call : Event → Option Call
  | Event.newDockerClient url _ => some (Call.newDockerClient url)
  | Event.info _ _ => some Call.info
  | Event.listContainers all size filters _ _ => some (Call.listContainers all size filters)
  | Event.listImages _ _ => some Call.listImages
  | Event.stopContainer id timeout _ => some (Call.stopContainer id timeout)
  | Event.removeImage id _ _ => some (Call.removeImage id)
  | _ => none

/-- The daemon operations of a run, in order. -/
def calls (evs : List Event) : List Call := evs.filterMap Event.call

/-- The error a daemon stop or remove call returned, if it failed. -/
def Event.failure : Event → Option GoError
  | Event.stopContainer _ _ err => err
  | Event.removeImage _ _ err => err
  | _ => none

/-- The errors of the failing stop and remove calls of a run, in call order. -/
def failures (evs : List Event) : List GoError := evs.filterMap Event.failure

/-- Whether an event is console traffic: a line printed on standard output
or a read of standard input. -/
def Event.isConsole : Event → Bool
  | Event.printf _ _ => true
  | Event.scanln _ => true
  | _ => false

/-- The console traffic of a run, in order. -/
def console (evs : List Event) : List Event := evs.filter Event.isConsole

/-- The errors logged with `log.Printf`, in order. -/
def loggedErrors (evs : List Event) : List GoError :=
  evs.filterMap fun e => match e with
    | Event.logPrintf _ [Val.err x] => some x
    | _ => none

/-- The ids `RemoveImage` was called on, in call order. -/
def removeCalls (evs : List Event) : List String :=
  evs.filterMap fun e => match e with
    | Event.removeImage id _ _ => some id
    | _ => none

/-- The kind of an event: its constructor. -/
inductive Kind
  | usage | newDockerClient | info | listContainers | listImages | stopContainer
  | removeImage | printf | scanln | logPrintf | logFatalf | stopCotainers | deleteImage
deriving DecidableEq, Repr

/-- The kind of an event. -/
def Event.kind : Event → Kind
  | Event.usage => Kind.usage
  | Event.newDockerClient _ _ => Kind.newDockerClient
  | Event.info _ _ => Kind.info
  | Event.listContainers _ _ _ _ _ => Kind.listContainers
  | Event.listImages _ _ => Kind.listImages
  | Event.stopContainer _ _ _ => Kind.stopContainer
  | Event.removeImage _ _ _ => Kind.removeImage
  | Event.printf _ _ => Kind.printf
  | Event.scanln _ => Kind.scanln
  | Event.logPrintf _ _ => Kind.logPrintf
  | Event.logFatalf _ _ => Kind.logFatalf
  | Event.stopCotainers _ => Kind.stopCotainers
  | Event.deleteImage _ => Kind.deleteImage

/-- All events of `evs` are of one of the kinds `K`. -/
def Shape (K : List Kind) (evs : List Event) : Prop := ∀ e ∈ evs, e.kind ∈ K

/-- Whether a daemon call that `main` treats as fatal failed: connecting,
the system-time query or a listing. -/
def Event.fatalFailure : Event → Bool
  | Event.newDockerClient _ (some _) => true
  | Event.info _ (some _) => true
  | Event.listContainers _ _ _ _ (some _) => true
  | Event.listImages _ (some _) => true
  | _ => false

/-- The events of the confirmation gate of `stopCotainers`. -/
def askedStop (ids : List String) (answer : String) : List Event :=
  [Event.stopCotainers ids,
   Event.printf "This will stop %v images\n" [Val.int ids.length],
   Event.printf "Do you want to continue? (yes/no)\n" [],
   Event.scanln answer]

/-- The events of the confirmation gate of `deleteImage`. -/
def askedDelete (ids : List String) (answer : String) : List Event :=
  [Event.deleteImage ids,
   Event.printf "This will delete %v images\n" [Val.int ids.length],
   Event.printf "Do you want to continue? (yes/no)\n" [],
   Event.scanln answer]

/-- The list `main` hands to `deleteImage`: the ids under the age rule when
`-clean-old` is set, then the ids under the untagged rule when `-clean-none`
is set. -/
def selectedImages (lib : Lib) (o : Options) (t : Int) (images : List Image) : List String :=
  (if o.cleanOld ≠ "" then
      (images.filter (fun i => decide (subInt64 t i.Created >
        lib.seconds (lib.parseDuration o.cleanOld).1))).map Image.Id
    else []) ++
  (if o.cleanNone = true then
      (images.filter (fun i => decide (i.RepoTags = ["<none>:<none>"]))).map Image.Id
    else [])

/-- The ids, in listing order, of the images whose age at time `t` exceeds
`d` seconds. -/
def oldImageIds (t d : Int) (images : List Image) : List String :=
  (images.filter (fun i => decide (subInt64 t i.Created > d))).map Image.Id

/-- The ids, in listing order, of the images whose tags are exactly the one
sentinel. -/
def untaggedIds (images : List Image) : List String :=
  (images.filter (fun i => decide (i.RepoTags = ["<none>:<none>"]))).map Image.Id

/-- The first word of the line at the head of standard input: the leading
blanks other than a newline are dropped and the runes up to the next space
are taken; empty when the line is empty or the input is at its end. -/
def firstWord (stdin : List Char) : String :=
  String.mk ((stdin.dropWhile (fun c => isSpace c && c != newline)).takeWhile
    (fun c => !isSpace c))

/-- The daemon after `StopContainer(id, 10)` on each id in turn. -/
def stopAll (D : Daemon σ) (ids : List String) (d : σ) : σ :=
  ids.foldl (fun s id => (D.stopContainer id 10 s).2) d

/-- The errors the daemon returns to `StopContainer(id, 10)` on each id in
turn, each call made on the state the call before left. -/
def stopErrors (D : Daemon σ) : List String → σ → List GoError
  | [], _ => []
  | id :: rest, d =>
    (D.stopContainer id 10 d).1.toList ++ stopErrors D rest (D.stopContainer id 10 d).2

/-- The daemon after `RemoveImage(id)` on each id in turn. -/
def removeAll (D : Daemon σ) (ids : List String) (d : σ) : σ :=
  ids.foldl (fun s id => (D.removeImage id s).2) d

/-- The errors the daemon returns to `RemoveImage(id)` on each id in turn,
each call made on the state the call before left. -/
def removeErrors (D : Daemon σ) : List String → σ → List GoError
  | [], _ => []
  | id :: rest, d =>
    (D.removeImage id d).1.2.toList ++ removeErrors D rest (D.removeImage id d).2

/-- The ids `StopContainer` was called on, in call order. -/
def stopCalls (evs : List Event) : List String :=
  evs.filterMap fun e => match e with
    | Event.stopContainer id _ _ => some id
    | _ => none

/-- The ids, in listing order, of the containers whose age at time `t`
exceeds `d` seconds. -/
def oldContainerIds (t d : Int) (running : List Container) : List String :=
  (running.filter (fun c => decide (subInt64 t c.Created > d))).map Container.Id

/-- The world after the stop phase of a run that does not abort in it, told
from the daemon alone: untouched without `-stop-old`; otherwise the
containers are listed, those under the age rule are stopped in listing
order when `-yes` is set or the first word on standard input is `yes`, and
one scan of standard input is consumed unless `-yes` is set. -/
def worldAfterStop (lib : Lib) (D : Daemon σ) (o : Options) (t : Int) (w : World σ) :
    World σ :=
  if o.stopOld = "" then w
  else
    ⟨if o.noConfirm = true ∨ firstWord w.stdin = "yes" then
        stopAll D
          (oldContainerIds t (lib.seconds (lib.parseDuration o.stopOld).1)
            (D.listContainers false false "" w.daemon).1.1)
          (D.listContainers false false "" w.daemon).2
      else (D.listContainers false false "" w.daemon).2,
     if o.noConfirm = true then w.stdin else (scanln w.stdin).2⟩

/-- The line of text at the head of standard input, without its newline. -/
def firstLine (stdin : List Char) : String :=
  String.mk (stdin.takeWhile (fun c => c ≠ newline))

/-! ## Sample environments -/

/-- A fragment of the standard library on durations: a decimal number
followed by one of the units `h`, `m`, `s` the flag help names, within the
`int64` range of nanoseconds; every other string is rejected here.  The
theorems hold for every `Lib`; this one serves the scenarios. -/
def hmsLib : Lib where
  parseDuration s :=
    let digits := s.data.takeWhile Char.isDigit
    let unit := s.data.dropWhile Char.isDigit
    let n : Int := digits.foldl (fun acc c => 10 * acc + (c.toNat - 48 : Nat)) 0
    let scale : Int :=
      if unit = [Char.ofNat 104] then 3600000000000
      else if unit = [Char.ofNat 109] then 60000000000
      else if unit = [Char.ofNat 115] then 1000000000
      else 0
    if digits ≠ [] ∧ scale ≠ 0 ∧ n * scale < 2 ^ 63 then (n * scale, none)
    else (0, some ("time: invalid duration " ++ s))
  seconds d := Int.tdiv d 1000000000

/-- State of the sample daemon: its clock, the running containers and the
stored images. -/
structure Sim where
  clock : Int
  containers : List Container
  images : List Image
deriving DecidableEq, Repr

/-- A sample daemon: stopping a running container or removing a stored image
takes it out of the state; a stop or remove of an id that is not there
fails. -/
def simDaemon : Daemon Sim where
  newDockerClient _ s := (none, s)
  info s := ((s.clock, none), s)
  listContainers _ _ _ s := ((s.containers, none), s)
  listImages s := ((s.images, none), s)
  stopContainer id _ s :=
    if s.containers.any (fun c => c.Id = id) then
      (none, ⟨s.clock, s.containers.filter (fun c => c.Id ≠ id), s.images⟩)
    else (some ("No such container: " ++ id), s)
  removeImage id s :=
    if s.images.any (fun i => i.Id = id) then
      (([⟨id, ""⟩], none), ⟨s.clock, s.containers, s.images.filter (fun i => i.Id ≠ id)⟩)
    else (([], some ("No such image: " ++ id)), s)

/-- A sample daemon whose listings fail while everything else works. -/
def noListDaemon : Daemon Sim where
  newDockerClient _ s := (none, s)
  info s := ((s.clock, none), s)
  listContainers _ _ _ s := (([], some "cannot list containers"), s)
  listImages s := (([], some "cannot list images"), s)
  stopContainer _ _ s := (none, s)
  removeImage _ s := (([], none), s)

/-- A daemon state at time 7200 with one container, created at 3600, and
three images: `i1` old and untagged, `i2` recent and tagged, `i3` recent and
untagged. -/
def sampleSim : Sim :=
  ⟨7200, [⟨"c1", 3600, "Up About an hour"⟩],
    [⟨"i1", 100, ["<none>:<none>"]⟩, ⟨"i2", 7000, ["myrepo:latest"]⟩,
      ⟨"i3", 7100, ["<none>:<none>"]⟩]⟩

/-- A daemon state whose images show the cases of the untagged rule: the one
sentinel tag, the sentinel next to another tag, no tag, one other tag. -/
def tagSim : Sim :=
  ⟨7200, [],
    [⟨"a", 100, ["<none>:<none>"]⟩, ⟨"b", 100, ["myrepo:latest", "<none>:<none>"]⟩,
      ⟨"c", 100, []⟩, ⟨"d", 100, ["myrepo:latest"]⟩]⟩

/-! ## Machine integers -/

theorem subInt64_eq_sub (a b : Int) (h1 : -2 ^ 63 ≤ a - b) (h2 : a - b < 2 ^ 63) :
    subInt64 a b = a - b := by
  unfold subInt64 wrapInt64
  rw [Int.emod_eq_of_lt (by omega) (by omega)]
  omega

/-! ## Shapes of the event lists -/

theorem shape_nil (K : List Kind) : Shape K [] := by
  intro e he; cases he

theorem shape_cons {K : List Kind} {e : Event} {l : List Event} :
    Shape K (e :: l) ↔ e.kind ∈ K ∧ Shape K l := by
  simp [Shape]

theorem shape_append {K : List Kind} {l m : List Event} :
    Shape K (l ++ m) ↔ Shape K l ∧ Shape K m := by
  simp only [Shape, List.mem_append]
  constructor
  · intro h; exact ⟨fun e he => h e (Or.inl he), fun e he => h e (Or.inr he)⟩
  · rintro ⟨h1, h2⟩ e (he | he)
    · exact h1 e he
    · exact h2 e he

theorem Shape.mono {K K' : List Kind} {l : List Event} (h : Shape K l) (hsub : K ⊆ K') :
    Shape K' l := fun e he => hsub (h e he)

theorem Shape.kind_ne {K : List Kind} {l : List Event} (h : Shape K l) {k : Kind}
    (hk : k ∉ K) : ∀ e ∈ l, e.kind ≠ k := fun e he heq => hk (heq ▸ h e he)

theorem shape_selectContainers (t th : Int) (cs : List Container) (acc : List String) :
    Shape [Kind.logPrintf] (selectContainers t th cs acc).2 := by
  induction cs generalizing acc with
  | nil => simp [selectContainers, shape_nil]
  | cons c cs ih =>
    simp only [selectContainers]
    split <;> simp [shape_cons, Event.kind, ih]

theorem shape_selectOldImages (t : Int) (d : Duration) (th : Int) (is : List Image)
    (acc : List String) : Shape [Kind.logPrintf] (selectOldImages t d th is acc).2 := by
  induction is generalizing acc with
  | nil => simp [selectOldImages, shape_nil]
  | cons c cs ih =>
    simp only [selectOldImages]
    split <;> simp [shape_cons, Event.kind, ih]

theorem shape_selectUntagged (is : List Image) (acc : List String) :
    Shape [Kind.logPrintf] (selectUntagged is acc).2 := by
  induction is generalizing acc with
  | nil => simp [selectUntagged, shape_nil]
  | cons c cs ih =>
    simp only [selectUntagged]
    split <;> simp [shape_cons, Event.kind, ih]

theorem shape_logDeleted (l : List ImageDelete) : Shape [Kind.logPrintf] (logDeleted l) := by
  induction l with
  | nil => simp [logDeleted, shape_nil]
  | cons c cs ih =>
    simp only [logDeleted, shape_append]
    refine ⟨⟨?_, ?_⟩, ih⟩ <;> split <;> simp [shape_cons, shape_nil, Event.kind]

theorem shape_logErrors (l : List GoError) : Shape [Kind.logPrintf] (logErrors l) := by
  intro e he
  simp only [logErrors, List.mem_map] at he
  obtain ⟨x, _, rfl⟩ := he
  simp [Event.kind]

theorem shape_stopLoop (D : Daemon σ) (ids : List String) (errs : List GoError) (w : World σ) :
    Shape [Kind.stopContainer, Kind.logPrintf] (stopLoop D ids errs w).events := by
  induction ids generalizing errs w with
  | nil => simp [stopLoop, shape_nil]
  | cons c cs ih =>
    simp only [stopLoop]
    split <;> simp [shape_cons, Event.kind, ih]

theorem shape_deleteLoop (D : Daemon σ) (ids : List String) (errs : List GoError)
    (w : World σ) :
    Shape [Kind.removeImage, Kind.logPrintf] (deleteLoop D ids errs w).events := by
  induction ids generalizing errs w with
  | nil => simp [deleteLoop, shape_nil]
  | cons c cs ih =>
    simp only [deleteLoop, shape_cons, shape_append]
    exact ⟨by simp [Event.kind], (shape_logDeleted _).mono (by simp), ih _ _⟩

/-! ## The selection loops -/

theorem selectContainers_fst (t th : Int) (cs : List Container) (acc : List String) :
    (selectContainers t th cs acc).1 =
      acc ++ (cs.filter (fun c => decide (subInt64 t c.Created > th))).map Container.Id := by
  induction cs generalizing acc with
  | nil => simp [selectContainers]
  | cons c cs ih =>
    simp only [selectContainers]
    split
    · rename_i h; simp [ih, List.filter_cons, h]
    · rename_i h; simp [ih, List.filter_cons, h]

theorem selectOldImages_fst (t : Int) (d : Duration) (th : Int) (is : List Image)
    (acc : List String) :
    (selectOldImages t d th is acc).1 =
      acc ++ (is.filter (fun i => decide (subInt64 t i.Created > th))).map Image.Id := by
  induction is generalizing acc with
  | nil => simp [selectOldImages]
  | cons c cs ih =>
    simp only [selectOldImages]
    split
    · rename_i h; simp [ih, List.filter_cons, h]
    · rename_i h; simp [ih, List.filter_cons, h]

theorem untagged_iff (image : Image) :
    (image.RepoTags.length = 1 ∧ image.RepoTags[0]? = some "<none>:<none>") ↔
      image.RepoTags = ["<none>:<none>"] := by
  constructor
  · rintro ⟨h1, h2⟩
    match h : image.RepoTags, h1, h2 with
    | [x], _, h2 => simpa using h2
  · intro h; simp [h]

theorem selectUntagged_fst (is : List Image) (acc : List String) :
    (selectUntagged is acc).1 =
      acc ++ (is.filter (fun i => decide (i.RepoTags = ["<none>:<none>"]))).map Image.Id := by
  induction is generalizing acc with
  | nil => simp [selectUntagged]
  | cons c cs ih =>
    simp only [selectUntagged, untagged_iff]
    split
    · rename_i h; simp [ih, List.filter_cons, h]
    · rename_i h; simp [ih, List.filter_cons, h]

/-! ## Projections of event lists of a known shape -/

theorem stopArgs_append (l m : List Event) : stopArgs (l ++ m) = stopArgs l ++ stopArgs m := by
  simp [stopArgs]

theorem deleteArgs_append (l m : List Event) :
    deleteArgs (l ++ m) = deleteArgs l ++ deleteArgs m := by
  simp [deleteArgs]

theorem calls_append (l m : List Event) : calls (l ++ m) = calls l ++ calls m := by
  simp [calls]

theorem failures_append (l m : List Event) : failures (l ++ m) = failures l ++ failures m := by
  simp [failures]

theorem loggedErrors_append (l m : List Event) :
    loggedErrors (l ++ m) = loggedErrors l ++ loggedErrors m := by
  simp [loggedErrors]

theorem removeCalls_append (l m : List Event) :
    removeCalls (l ++ m) = removeCalls l ++ removeCalls m := by
  simp [removeCalls]

theorem console_append (l m : List Event) : console (l ++ m) = console l ++ console m := by
  simp [console]

theorem stopArgs_cons (e : Event) (l : List Event) :
    stopArgs (e :: l) = stopArgs [e] ++ stopArgs l := stopArgs_append [e] l

theorem deleteArgs_cons (e : Event) (l : List Event) :
    deleteArgs (e :: l) = deleteArgs [e] ++ deleteArgs l := deleteArgs_append [e] l

theorem calls_cons (e : Event) (l : List Event) :
    calls (e :: l) = calls [e] ++ calls l := calls_append [e] l

theorem failures_cons (e : Event) (l : List Event) :
    failures (e :: l) = failures [e] ++ failures l := failures_append [e] l

theorem loggedErrors_cons (e : Event) (l : List Event) :
    loggedErrors (e :: l) = loggedErrors [e] ++ loggedErrors l := loggedErrors_append [e] l

theorem removeCalls_cons (e : Event) (l : List Event) :
    removeCalls (e :: l) = removeCalls [e] ++ removeCalls l := removeCalls_append [e] l

theorem console_cons (e : Event) (l : List Event) :
    console (e :: l) = console [e] ++ console l := console_append [e] l

theorem stopArgs_eq_nil {l : List Event} (h : ∀ e ∈ l, e.kind ≠ Kind.stopCotainers) :
    stopArgs l = [] := by
  induction l with
  | nil => rfl
  | cons e l ih =>
    have he := h e (List.mem_cons_self _ _)
    have hl := ih (fun x hx => h x (List.mem_cons_of_mem _ hx))
    clear h ih
    cases e <;> first
      | exact absurd rfl he | exact absurd rfl he.1 | exact absurd rfl he.2
      | simpa [stopArgs] using hl

theorem deleteArgs_eq_nil {l : List Event} (h : ∀ e ∈ l, e.kind ≠ Kind.deleteImage) :
    deleteArgs l = [] := by
  induction l with
  | nil => rfl
  | cons e l ih =>
    have he := h e (List.mem_cons_self _ _)
    have hl := ih (fun x hx => h x (List.mem_cons_of_mem _ hx))
    clear h ih
    cases e <;> first
      | exact absurd rfl he | exact absurd rfl he.1 | exact absurd rfl he.2
      | simpa [deleteArgs] using hl

theorem removeCalls_eq_nil {l : List Event} (h : ∀ e ∈ l, e.kind ≠ Kind.removeImage) :
    removeCalls l = [] := by
  induction l with
  | nil => rfl
  | cons e l ih =>
    have he := h e (List.mem_cons_self _ _)
    have hl := ih (fun x hx => h x (List.mem_cons_of_mem _ hx))
    clear h ih
    cases e <;> first
      | exact absurd rfl he | exact absurd rfl he.1 | exact absurd rfl he.2
      | simpa [removeCalls] using hl

theorem calls_eq_nil {l : List Event}
    (h : Shape [Kind.usage, Kind.printf, Kind.scanln, Kind.logPrintf, Kind.logFatalf,
      Kind.stopCotainers, Kind.deleteImage] l) : calls l = [] := by
  induction l with
  | nil => rfl
  | cons e l ih =>
    rw [shape_cons] at h
    have hl := ih h.2
    have he := h.1
    clear h ih
    cases e <;> first | simpa [calls, Event.call] using hl | (exfalso; revert he; simp [Event.kind])

theorem failures_eq_nil {l : List Event}
    (h : ∀ e ∈ l, e.kind ≠ Kind.stopContainer ∧ e.kind ≠ Kind.removeImage) :
    failures l = [] := by
  induction l with
  | nil => rfl
  | cons e l ih =>
    have he := h e (List.mem_cons_self _ _)
    have hl := ih (fun x hx => h x (List.mem_cons_of_mem _ hx))
    clear h ih
    cases e <;> first
      | exact absurd rfl he | exact absurd rfl he.1 | exact absurd rfl he.2
      | simpa [failures, Event.failure] using hl

theorem console_eq_nil {l : List Event}
    (h : ∀ e ∈ l, e.kind ≠ Kind.printf ∧ e.kind ≠ Kind.scanln) : console l = [] := by
  induction l with
  | nil => rfl
  | cons e l ih =>
    have he := h e (List.mem_cons_self _ _)
    have hl := ih (fun x hx => h x (List.mem_cons_of_mem _ hx))
    clear h ih
    cases e <;> first
      | exact absurd rfl he | exact absurd rfl he.1 | exact absurd rfl he.2
      | simpa [console, Event.isConsole] using hl

/-! ## The action functions -/

theorem calls_logDeleted (l : List ImageDelete) : calls (logDeleted l) = [] :=
  calls_eq_nil ((shape_logDeleted l).mono (by simp))

theorem failures_logDeleted (l : List ImageDelete) : failures (logDeleted l) = [] :=
  failures_eq_nil (fun e he =>
    ⟨(shape_logDeleted l).kind_ne (by decide) e he,
      (shape_logDeleted l).kind_ne (by decide) e he⟩)

theorem removeCalls_logDeleted (l : List ImageDelete) : removeCalls (logDeleted l) = [] :=
  removeCalls_eq_nil ((shape_logDeleted l).kind_ne (by decide))

theorem loggedErrors_logDeleted (l : List ImageDelete) : loggedErrors (logDeleted l) = [] := by
  induction l with
  | nil => rfl
  | cons c cs ih =>
    simp only [logDeleted, loggedErrors_append, ih, List.append_nil]
    split <;> split <;> rfl

theorem loggedErrors_logErrors (l : List GoError) : loggedErrors (logErrors l) = l := by
  induction l with
  | nil => rfl
  | cons c cs ih =>
    simp only [logErrors, List.map_cons] at ih ⊢
    rw [loggedErrors_cons, ih]; rfl

theorem loggedErrors_selectContainers (t th : Int) (cs : List Container) (acc : List String) :
    loggedErrors (selectContainers t th cs acc).2 = [] := by
  induction cs generalizing acc with
  | nil => rfl
  | cons c cs ih =>
    simp only [selectContainers]
    split
    · rw [loggedErrors_cons _ (_ :: _), loggedErrors_cons _ (selectContainers _ _ _ _).2, ih]; rfl
    · rw [loggedErrors_cons, ih]; rfl

theorem loggedErrors_selectOldImages (t : Int) (d : Duration) (th : Int) (is : List Image)
    (acc : List String) : loggedErrors (selectOldImages t d th is acc).2 = [] := by
  induction is generalizing acc with
  | nil => rfl
  | cons c cs ih =>
    simp only [selectOldImages]
    split
    · rw [loggedErrors_cons, ih]; rfl
    · exact ih _

theorem loggedErrors_selectUntagged (is : List Image) (acc : List String) :
    loggedErrors (selectUntagged is acc).2 = [] := by
  induction is generalizing acc with
  | nil => rfl
  | cons c cs ih =>
    simp only [selectUntagged]
    split
    · rw [loggedErrors_cons, ih]; rfl
    · exact ih _

theorem stopLoop_calls (D : Daemon σ) (ids : List String) (errs : List GoError) (w : World σ) :
    calls (stopLoop D ids errs w).events = ids.map (fun id => Call.stopContainer id 10) := by
  induction ids generalizing errs w with
  | nil => rfl
  | cons c cs ih =>
    simp only [stopLoop]
    split
    · rw [calls_cons, ih]; rfl
    · rw [calls_cons _ (_ :: _), calls_cons _ (stopLoop _ _ _ _).events, ih]; rfl

theorem stopLoop_val (D : Daemon σ) (ids : List String) (errs : List GoError) (w : World σ) :
    (stopLoop D ids errs w).val = errs ++ failures (stopLoop D ids errs w).events := by
  induction ids generalizing errs w with
  | nil => simp [stopLoop, failures]
  | cons c cs ih =>
    simp only [stopLoop]
    split
    · rw [failures_cons, ih]; simp [failures, Event.failure]
    · rw [failures_cons _ (_ :: _), failures_cons _ (stopLoop _ _ _ _).events, ih]
      simp [failures, Event.failure]

theorem stopLoop_stdin (D : Daemon σ) (ids : List String) (errs : List GoError) (w : World σ) :
    (stopLoop D ids errs w).world.stdin = w.stdin := by
  induction ids generalizing errs w with
  | nil => rfl
  | cons c cs ih =>
    simp only [stopLoop]
    split <;> simp [ih]

theorem loggedErrors_stopLoop (D : Daemon σ) (ids : List String) (errs : List GoError)
    (w : World σ) : loggedErrors (stopLoop D ids errs w).events = [] := by
  induction ids generalizing errs w with
  | nil => rfl
  | cons c cs ih =>
    simp only [stopLoop]
    split
    · rw [loggedErrors_cons, ih]; rfl
    · rw [loggedErrors_cons _ (_ :: _), loggedErrors_cons _ (stopLoop _ _ _ _).events, ih]; rfl

theorem deleteLoop_calls (D : Daemon σ) (ids : List String) (errs : List GoError)
    (w : World σ) :
    calls (deleteLoop D ids errs w).events = ids.map Call.removeImage := by
  induction ids generalizing errs w with
  | nil => rfl
  | cons c cs ih =>
    simp only [deleteLoop, List.map_cons]
    rw [calls_cons, calls_append, calls_logDeleted, ih]; rfl

theorem deleteLoop_removeCalls (D : Daemon σ) (ids : List String) (errs : List GoError)
    (w : World σ) : removeCalls (deleteLoop D ids errs w).events = ids := by
  induction ids generalizing errs w with
  | nil => rfl
  | cons c cs ih =>
    simp only [deleteLoop]
    rw [removeCalls_cons, removeCalls_append, removeCalls_logDeleted, ih]; rfl

theorem deleteLoop_val (D : Daemon σ) (ids : List String) (errs : List GoError) (w : World σ) :
    (deleteLoop D ids errs w).val = errs ++ failures (deleteLoop D ids errs w).events := by
  induction ids generalizing errs w with
  | nil => simp [deleteLoop, failures]
  | cons c cs ih =>
    simp only [deleteLoop]
    rw [failures_cons, failures_append, failures_logDeleted, ih]
    cases hd : (D.removeImage c w.daemon).1.2 <;> simp [failures, Event.failure]

theorem deleteLoop_stdin (D : Daemon σ) (ids : List String) (errs : List GoError)
    (w : World σ) : (deleteLoop D ids errs w).world.stdin = w.stdin := by
  induction ids generalizing errs w with
  | nil => rfl
  | cons c cs ih => simp [deleteLoop, ih]

theorem loggedErrors_deleteLoop (D : Daemon σ) (ids : List String) (errs : List GoError)
    (w : World σ) : loggedErrors (deleteLoop D ids errs w).events = [] := by
  induction ids generalizing errs w with
  | nil => rfl
  | cons c cs ih =>
    simp only [deleteLoop]
    rw [loggedErrors_cons, loggedErrors_append, loggedErrors_logDeleted, ih]; rfl

theorem ite_length_pos {α : Type} (l : List α) : (if l.length > 0 then l else []) = l := by
  cases l <;> simp

theorem stopCotainers_noConfirm (D : Daemon σ) (ids : List String) (w : World σ) :
    stopCotainers D true ids w =
      ⟨(stopLoop D ids [] w).val, (stopLoop D ids [] w).world,
        Event.stopCotainers ids :: (stopLoop D ids [] w).events⟩ := by
  simp [stopCotainers, ite_length_pos]

theorem stopCotainers_confirmed (D : Daemon σ) (ids : List String) (w : World σ)
    (h : (scanln w.stdin).1 = "yes") :
    stopCotainers D false ids w =
      ⟨(stopLoop D ids [] ⟨w.daemon, (scanln w.stdin).2⟩).val,
        (stopLoop D ids [] ⟨w.daemon, (scanln w.stdin).2⟩).world,
        askedStop ids "yes" ++
          (stopLoop D ids [] ⟨w.daemon, (scanln w.stdin).2⟩).events⟩ := by
  simp [stopCotainers, ite_length_pos, h, askedStop]

theorem stopCotainers_aborted (D : Daemon σ) (ids : List String) (w : World σ)
    (h : (scanln w.stdin).1 ≠ "yes") :
    stopCotainers D false ids w =
      ⟨[], ⟨w.daemon, (scanln w.stdin).2⟩,
        askedStop ids (scanln w.stdin).1 ++
          [Event.printf "%v" [Val.str (scanln w.stdin).1]]⟩ := by
  simp [stopCotainers, h, askedStop]

theorem deleteImage_noConfirm (D : Daemon σ) (ids : List String) (w : World σ) :
    deleteImage D true ids w =
      ⟨(deleteLoop D ids [] w).val, (deleteLoop D ids [] w).world,
        Event.deleteImage ids :: (deleteLoop D ids [] w).events⟩ := by
  simp [deleteImage, ite_length_pos]

theorem deleteImage_confirmed (D : Daemon σ) (ids : List String) (w : World σ)
    (h : (scanln w.stdin).1 = "yes") :
    deleteImage D false ids w =
      ⟨(deleteLoop D ids [] ⟨w.daemon, (scanln w.stdin).2⟩).val,
        (deleteLoop D ids [] ⟨w.daemon, (scanln w.stdin).2⟩).world,
        askedDelete ids "yes" ++
          (deleteLoop D ids [] ⟨w.daemon, (scanln w.stdin).2⟩).events⟩ := by
  simp [deleteImage, ite_length_pos, h, askedDelete]

theorem deleteImage_aborted (D : Daemon σ) (ids : List String) (w : World σ)
    (h : (scanln w.stdin).1 ≠ "yes") :
    deleteImage D false ids w =
      ⟨[], ⟨w.daemon, (scanln w.stdin).2⟩,
        askedDelete ids (scanln w.stdin).1 ++
          [Event.printf "%v" [Val.str (scanln w.stdin).1]]⟩ := by
  simp [deleteImage, h, askedDelete]

theorem shape_askedStop (ids : List String) (a : String) :
    Shape [Kind.stopCotainers, Kind.printf, Kind.scanln] (askedStop ids a) := by
  simp [Shape, askedStop, Event.kind]

theorem shape_askedDelete (ids : List String) (a : String) :
    Shape [Kind.deleteImage, Kind.printf, Kind.scanln] (askedDelete ids a) := by
  simp [Shape, askedDelete, Event.kind]

theorem shape_stopCotainers (D : Daemon σ) (nc : Bool) (ids : List String) (w : World σ) :
    Shape [Kind.stopCotainers, Kind.printf, Kind.scanln, Kind.stopContainer, Kind.logPrintf]
      (stopCotainers D nc ids w).events := by
  cases nc
  · by_cases h : (scanln w.stdin).1 = "yes"
    · rw [stopCotainers_confirmed D ids w h, shape_append]
      exact ⟨(shape_askedStop _ _).mono (by simp), (shape_stopLoop _ _ _ _).mono (by simp)⟩
    · rw [stopCotainers_aborted D ids w h, shape_append]
      exact ⟨(shape_askedStop _ _).mono (by simp), by simp [Shape, Event.kind]⟩
  · rw [stopCotainers_noConfirm, shape_cons]
    exact ⟨by simp [Event.kind], (shape_stopLoop _ _ _ _).mono (by simp)⟩

theorem shape_deleteImage (D : Daemon σ) (nc : Bool) (ids : List String) (w : World σ) :
    Shape [Kind.deleteImage, Kind.printf, Kind.scanln, Kind.removeImage, Kind.logPrintf]
      (deleteImage D nc ids w).events := by
  cases nc
  · by_cases h : (scanln w.stdin).1 = "yes"
    · rw [deleteImage_confirmed D ids w h, shape_append]
      exact ⟨(shape_askedDelete _ _).mono (by simp), (shape_deleteLoop _ _ _ _).mono (by simp)⟩
    · rw [deleteImage_aborted D ids w h, shape_append]
      exact ⟨(shape_askedDelete _ _).mono (by simp), by simp [Shape, Event.kind]⟩
  · rw [deleteImage_noConfirm, shape_cons]
    exact ⟨by simp [Event.kind], (shape_deleteLoop _ _ _ _).mono (by simp)⟩

theorem stopCotainers_calls (D : Daemon σ) (nc : Bool) (ids : List String) (w : World σ) :
    calls (stopCotainers D nc ids w).events =
      if nc = true ∨ (scanln w.stdin).1 = "yes" then
        ids.map (fun id => Call.stopContainer id 10)
      else [] := by
  cases nc
  · by_cases h : (scanln w.stdin).1 = "yes"
    · rw [stopCotainers_confirmed D ids w h, calls_append, stopLoop_calls, if_pos (Or.inr h)]
      rfl
    · rw [stopCotainers_aborted D ids w h, if_neg (by simp [h])]; rfl
  · rw [stopCotainers_noConfirm, calls_cons, stopLoop_calls, if_pos (Or.inl rfl)]; rfl

theorem deleteImage_calls (D : Daemon σ) (nc : Bool) (ids : List String) (w : World σ) :
    calls (deleteImage D nc ids w).events =
      if nc = true ∨ (scanln w.stdin).1 = "yes" then ids.map Call.removeImage else [] := by
  cases nc
  · by_cases h : (scanln w.stdin).1 = "yes"
    · rw [deleteImage_confirmed D ids w h, calls_append, deleteLoop_calls, if_pos (Or.inr h)]
      rfl
    · rw [deleteImage_aborted D ids w h, if_neg (by simp [h])]; rfl
  · rw [deleteImage_noConfirm, calls_cons, deleteLoop_calls, if_pos (Or.inl rfl)]; rfl

theorem stopCotainers_val (D : Daemon σ) (nc : Bool) (ids : List String) (w : World σ) :
    (stopCotainers D nc ids w).val = failures (stopCotainers D nc ids w).events := by
  cases nc
  · by_cases h : (scanln w.stdin).1 = "yes"
    · rw [stopCotainers_confirmed D ids w h, failures_append, stopLoop_val]; rfl
    · rw [stopCotainers_aborted D ids w h]; rfl
  · rw [stopCotainers_noConfirm, failures_cons, stopLoop_val]; rfl

theorem deleteImage_val (D : Daemon σ) (nc : Bool) (ids : List String) (w : World σ) :
    (deleteImage D nc ids w).val = failures (deleteImage D nc ids w).events := by
  cases nc
  · by_cases h : (scanln w.stdin).1 = "yes"
    · rw [deleteImage_confirmed D ids w h, failures_append, deleteLoop_val]; rfl
    · rw [deleteImage_aborted D ids w h]; rfl
  · rw [deleteImage_noConfirm, failures_cons, deleteLoop_val]; rfl

theorem stopCotainers_stopArgs (D : Daemon σ) (nc : Bool) (ids : List String) (w : World σ) :
    stopArgs (stopCotainers D nc ids w).events = [ids] := by
  have hloop : ∀ w1, stopArgs (stopLoop D ids [] w1).events = [] := fun w1 =>
    stopArgs_eq_nil ((shape_stopLoop D ids [] w1).kind_ne (by decide))
  cases nc
  · by_cases h : (scanln w.stdin).1 = "yes"
    · rw [stopCotainers_confirmed D ids w h, stopArgs_append, hloop]; rfl
    · rw [stopCotainers_aborted D ids w h]; rfl
  · rw [stopCotainers_noConfirm, stopArgs_cons, hloop]; rfl

theorem deleteImage_deleteArgs (D : Daemon σ) (nc : Bool) (ids : List String) (w : World σ) :
    deleteArgs (deleteImage D nc ids w).events = [ids] := by
  have hloop : ∀ w1, deleteArgs (deleteLoop D ids [] w1).events = [] := fun w1 =>
    deleteArgs_eq_nil ((shape_deleteLoop D ids [] w1).kind_ne (by decide))
  cases nc
  · by_cases h : (scanln w.stdin).1 = "yes"
    · rw [deleteImage_confirmed D ids w h, deleteArgs_append, hloop]; rfl
    · rw [deleteImage_aborted D ids w h]; rfl
  · rw [deleteImage_noConfirm, deleteArgs_cons, hloop]; rfl

theorem stopCotainers_loggedErrors (D : Daemon σ) (nc : Bool) (ids : List String)
    (w : World σ) : loggedErrors (stopCotainers D nc ids w).events = [] := by
  cases nc
  · by_cases h : (scanln w.stdin).1 = "yes"
    · rw [stopCotainers_confirmed D ids w h, loggedErrors_append, loggedErrors_stopLoop]; rfl
    · rw [stopCotainers_aborted D ids w h]; rfl
  · rw [stopCotainers_noConfirm, loggedErrors_cons, loggedErrors_stopLoop]; rfl

theorem deleteImage_loggedErrors (D : Daemon σ) (nc : Bool) (ids : List String)
    (w : World σ) : loggedErrors (deleteImage D nc ids w).events = [] := by
  cases nc
  · by_cases h : (scanln w.stdin).1 = "yes"
    · rw [deleteImage_confirmed D ids w h, loggedErrors_append, loggedErrors_deleteLoop]; rfl
    · rw [deleteImage_aborted D ids w h]; rfl
  · rw [deleteImage_noConfirm, loggedErrors_cons, loggedErrors_deleteLoop]; rfl

theorem deleteImage_removeCalls (D : Daemon σ) (ids : List String) (w : World σ) :
    removeCalls (deleteImage D true ids w).events = ids := by
  rw [deleteImage_noConfirm, removeCalls_cons, deleteLoop_removeCalls]; rfl

/-! ## The phases of `main` -/

theorem Shape.not_mem {K : List Kind} {l : List Event} (h : Shape K l) {e : Event}
    (hk : e.kind ∉ K) : e ∉ l := fun he => hk (h e he)

theorem stopOld_unset (lib : Lib) (D : Daemon σ) (o : Options) (t : Int) (w : World σ)
    (h : o.stopOld = "") : stopOldContainers lib D o t w = ⟨Exit.returned, w, []⟩ := by
  simp [stopOldContainers, h]

theorem stopOld_parseErr (lib : Lib) (D : Daemon σ) (o : Options) (t : Int) (w : World σ)
    {e : GoError} (h : o.stopOld ≠ "") (hp : (lib.parseDuration o.stopOld).2 = some e) :
    stopOldContainers lib D o t w = ⟨Exit.fatal, w, [Event.logFatalf "%v" [Val.err e]]⟩ := by
  simp [stopOldContainers, h, hp]

theorem stopOld_listErr (lib : Lib) (D : Daemon σ) (o : Options) (t : Int) (w : World σ)
    {e : GoError} (h : o.stopOld ≠ "") (hp : (lib.parseDuration o.stopOld).2 = none)
    (hl : (D.listContainers false false "" w.daemon).1.2 = some e) :
    stopOldContainers lib D o t w =
      ⟨Exit.fatal, ⟨(D.listContainers false false "" w.daemon).2, w.stdin⟩,
        [Event.logPrintf "Stoppping containers that are running longer than: %v"
            [Val.dur (lib.parseDuration o.stopOld).1],
          Event.listContainers false false "" (D.listContainers false false "" w.daemon).1.1
            (some e),
          Event.logFatalf "%v" [Val.err e]]⟩ := by
  simp [stopOldContainers, h, hp, hl]

theorem stopOld_ok (lib : Lib) (D : Daemon σ) (o : Options) (t : Int) (w : World σ)
    (h : o.stopOld ≠ "") (hp : (lib.parseDuration o.stopOld).2 = none)
    (hl : (D.listContainers false false "" w.daemon).1.2 = none) :
    stopOldContainers lib D o t w =
      ⟨Exit.returned,
        (stopCotainers D o.noConfirm
          (selectContainers t (lib.seconds (lib.parseDuration o.stopOld).1)
            (D.listContainers false false "" w.daemon).1.1 []).1
          ⟨(D.listContainers false false "" w.daemon).2, w.stdin⟩).world,
        [Event.logPrintf "Stoppping containers that are running longer than: %v"
            [Val.dur (lib.parseDuration o.stopOld).1],
          Event.listContainers false false "" (D.listContainers false false "" w.daemon).1.1
            none] ++
        (selectContainers t (lib.seconds (lib.parseDuration o.stopOld).1)
            (D.listContainers false false "" w.daemon).1.1 []).2 ++
        (stopCotainers D o.noConfirm
          (selectContainers t (lib.seconds (lib.parseDuration o.stopOld).1)
            (D.listContainers false false "" w.daemon).1.1 []).1
          ⟨(D.listContainers false false "" w.daemon).2, w.stdin⟩).events ++
        logErrors (stopCotainers D o.noConfirm
          (selectContainers t (lib.seconds (lib.parseDuration o.stopOld).1)
            (D.listContainers false false "" w.daemon).1.1 []).1
          ⟨(D.listContainers false false "" w.daemon).2, w.stdin⟩).val⟩ := by
  simp [stopOldContainers, h, hp, hl]

theorem shape_stopOldContainers (lib : Lib) (D : Daemon σ) (o : Options) (t : Int)
    (w : World σ) :
    Shape [Kind.logFatalf, Kind.logPrintf, Kind.listContainers, Kind.stopCotainers,
      Kind.printf, Kind.scanln, Kind.stopContainer] (stopOldContainers lib D o t w).events := by
  by_cases h : o.stopOld = ""
  · rw [stopOld_unset _ _ _ _ _ h]; exact shape_nil _
  · rcases hp : (lib.parseDuration o.stopOld).2 with _ | e
    · rcases hl : (D.listContainers false false "" w.daemon).1.2 with _ | e
      · rw [stopOld_ok _ _ _ _ _ h hp hl]
        simp only [shape_append, shape_cons]
        exact ⟨⟨⟨by simp [Event.kind, shape_nil],
          (shape_selectContainers _ _ _ _).mono (by simp)⟩,
          (shape_stopCotainers _ _ _ _).mono (by simp)⟩, (shape_logErrors _).mono (by simp)⟩
      · rw [stopOld_listErr _ _ _ _ _ h hp hl]; simp [Shape, Event.kind]
    · rw [stopOld_parseErr _ _ _ _ _ h hp]; simp [Shape, Event.kind]

theorem deleteSelected_eq (D : Daemon σ) (o : Options) (images : List Image)
    (toDelete : List String) (w : World σ) (h : o.cleanOld ≠ "" ∨ o.cleanNone = true) :
    deleteSelected D o images toDelete w =
      ⟨Exit.returned,
        (deleteImage D o.noConfirm
          (if o.cleanNone = true then selectUntagged images toDelete else (toDelete, [])).1
          w).world,
        (if o.cleanNone = true then selectUntagged images toDelete else (toDelete, [])).2 ++
        (deleteImage D o.noConfirm
          (if o.cleanNone = true then selectUntagged images toDelete else (toDelete, [])).1
          w).events ++
        logErrors (deleteImage D o.noConfirm
          (if o.cleanNone = true then selectUntagged images toDelete else (toDelete, [])).1
          w).val⟩ := by
  simp only [deleteSelected, if_pos h]

theorem deleteSelected_idle (D : Daemon σ) (o : Options) (images : List Image)
    (toDelete : List String) (w : World σ) (h1 : o.cleanOld = "") (h2 : o.cleanNone = false) :
    deleteSelected D o images toDelete w = ⟨Exit.returned, w, []⟩ := by
  simp [deleteSelected, h1, h2]

theorem shape_deleteSelected (D : Daemon σ) (o : Options) (images : List Image)
    (toDelete : List String) (w : World σ) :
    Shape [Kind.logFatalf, Kind.logPrintf, Kind.deleteImage, Kind.printf, Kind.scanln,
      Kind.removeImage] (deleteSelected D o images toDelete w).events := by
  have hsel : Shape [Kind.logFatalf, Kind.logPrintf, Kind.deleteImage, Kind.printf,
      Kind.scanln, Kind.removeImage]
      (if o.cleanNone = true then selectUntagged images toDelete else (toDelete, [])).2 := by
    split
    · exact (shape_selectUntagged _ _).mono (by simp)
    · exact shape_nil _
  by_cases h : o.cleanOld ≠ "" ∨ o.cleanNone = true
  · rw [deleteSelected_eq _ _ _ _ _ h]
    simp only [shape_append]
    exact ⟨⟨hsel, (shape_deleteImage _ _ _ _).mono (by simp)⟩,
      (shape_logErrors _).mono (by simp)⟩
  · rw [not_or, not_not, Bool.not_eq_true] at h
    rw [deleteSelected_idle _ _ _ _ _ h.1 h.2]; exact shape_nil _

theorem cleanListed_unset (lib : Lib) (D : Daemon σ) (o : Options) (t : Int)
    (images : List Image) (w : World σ) (h : o.cleanOld = "") :
    cleanListed lib D o t images w = deleteSelected D o images [] w := by
  simp [cleanListed, h]

theorem cleanListed_parseErr (lib : Lib) (D : Daemon σ) (o : Options) (t : Int)
    (images : List Image) (w : World σ) {e : GoError} (h : o.cleanOld ≠ "")
    (hp : (lib.parseDuration o.cleanOld).2 = some e) :
    cleanListed lib D o t images w = ⟨Exit.fatal, w, [Event.logFatalf "%v" [Val.err e]]⟩ := by
  simp [cleanListed, h, hp]

theorem cleanListed_ok (lib : Lib) (D : Daemon σ) (o : Options) (t : Int)
    (images : List Image) (w : World σ) (h : o.cleanOld ≠ "")
    (hp : (lib.parseDuration o.cleanOld).2 = none) :
    cleanListed lib D o t images w =
      ⟨(deleteSelected D o images
          (selectOldImages t (lib.parseDuration o.cleanOld).1
            (lib.seconds (lib.parseDuration o.cleanOld).1) images []).1 w).val,
        (deleteSelected D o images
          (selectOldImages t (lib.parseDuration o.cleanOld).1
            (lib.seconds (lib.parseDuration o.cleanOld).1) images []).1 w).world,
        (selectOldImages t (lib.parseDuration o.cleanOld).1
            (lib.seconds (lib.parseDuration o.cleanOld).1) images []).2 ++
        (deleteSelected D o images
          (selectOldImages t (lib.parseDuration o.cleanOld).1
            (lib.seconds (lib.parseDuration o.cleanOld).1) images []).1 w).events⟩ := by
  simp [cleanListed, h, hp]

theorem shape_cleanListed (lib : Lib) (D : Daemon σ) (o : Options) (t : Int)
    (images : List Image) (w : World σ) :
    Shape [Kind.logFatalf, Kind.logPrintf, Kind.deleteImage, Kind.printf, Kind.scanln,
      Kind.removeImage] (cleanListed lib D o t images w).events := by
  by_cases h : o.cleanOld = ""
  · rw [cleanListed_unset _ _ _ _ _ _ h]; exact shape_deleteSelected _ _ _ _ _
  · rcases hp : (lib.parseDuration o.cleanOld).2 with _ | e
    · rw [cleanListed_ok _ _ _ _ _ _ h hp]
      simp only [shape_append]
      exact ⟨(shape_selectOldImages _ _ _ _ _).mono (by simp), shape_deleteSelected _ _ _ _ _⟩
    · rw [cleanListed_parseErr _ _ _ _ _ _ h hp]; simp [Shape, Event.kind]

theorem cleanImages_idle (lib : Lib) (D : Daemon σ) (o : Options) (t : Int) (w : World σ)
    (h1 : o.cleanOld = "") (h2 : o.cleanNone = false) :
    cleanImages lib D o t w = ⟨Exit.returned, w, []⟩ := by
  simp [cleanImages, h1, h2, cleanListed_unset, deleteSelected_idle]

theorem cleanImages_listErr (lib : Lib) (D : Daemon σ) (o : Options) (t : Int) (w : World σ)
    {e : GoError} (h : o.cleanOld ≠ "" ∨ o.cleanNone = true)
    (hl : (D.listImages w.daemon).1.2 = some e) :
    cleanImages lib D o t w =
      ⟨Exit.fatal, ⟨(D.listImages w.daemon).2, w.stdin⟩,
        [Event.listImages (D.listImages w.daemon).1.1 (some e),
          Event.logFatalf "%v" [Val.err e]]⟩ := by
  simp only [cleanImages, if_pos h, hl]

theorem cleanImages_ok (lib : Lib) (D : Daemon σ) (o : Options) (t : Int) (w : World σ)
    (h : o.cleanOld ≠ "" ∨ o.cleanNone = true) (hl : (D.listImages w.daemon).1.2 = none) :
    cleanImages lib D o t w =
      ⟨(cleanListed lib D o t (D.listImages w.daemon).1.1
          ⟨(D.listImages w.daemon).2, w.stdin⟩).val,
        (cleanListed lib D o t (D.listImages w.daemon).1.1
          ⟨(D.listImages w.daemon).2, w.stdin⟩).world,
        Event.listImages (D.listImages w.daemon).1.1 none ::
          (cleanListed lib D o t (D.listImages w.daemon).1.1
            ⟨(D.listImages w.daemon).2, w.stdin⟩).events⟩ := by
  simp only [cleanImages, if_pos h, hl]

theorem shape_cleanImages (lib : Lib) (D : Daemon σ) (o : Options) (t : Int) (w : World σ) :
    Shape [Kind.listImages, Kind.logFatalf, Kind.logPrintf, Kind.deleteImage, Kind.printf,
      Kind.scanln, Kind.removeImage] (cleanImages lib D o t w).events := by
  by_cases h : o.cleanOld ≠ "" ∨ o.cleanNone = true
  · rcases hl : (D.listImages w.daemon).1.2 with _ | e
    · rw [cleanImages_ok _ _ _ _ _ h hl, shape_cons]
      exact ⟨by simp [Event.kind], (shape_cleanListed _ _ _ _ _ _).mono (by simp)⟩
    · rw [cleanImages_listErr _ _ _ _ _ h hl]; simp [Shape, Event.kind]
  · rw [not_or, not_not, Bool.not_eq_true] at h
    rw [cleanImages_idle _ _ _ _ _ h.1 h.2]; exact shape_nil _

theorem cleanup_fatal (lib : Lib) (D : Daemon σ) (o : Options) (t : Int) (w : World σ)
    (h : (stopOldContainers lib D o t w).val = Exit.fatal) :
    cleanup lib D o t w =
      ⟨Exit.fatal, (stopOldContainers lib D o t w).world,
        (stopOldContainers lib D o t w).events⟩ := by
  simp [cleanup, h]

theorem cleanup_returned (lib : Lib) (D : Daemon σ) (o : Options) (t : Int) (w : World σ)
    (h : (stopOldContainers lib D o t w).val = Exit.returned) :
    cleanup lib D o t w =
      ⟨(cleanImages lib D o t (stopOldContainers lib D o t w).world).val,
        (cleanImages lib D o t (stopOldContainers lib D o t w).world).world,
        (stopOldContainers lib D o t w).events ++
          (cleanImages lib D o t (stopOldContainers lib D o t w).world).events⟩ := by
  simp [cleanup, h]

theorem shape_cleanup (lib : Lib) (D : Daemon σ) (o : Options) (t : Int) (w : World σ) :
    Shape [Kind.listContainers, Kind.listImages, Kind.stopContainer, Kind.removeImage,
      Kind.printf, Kind.scanln, Kind.logPrintf, Kind.logFatalf, Kind.stopCotainers,
      Kind.deleteImage] (cleanup lib D o t w).events := by
  rcases h : (stopOldContainers lib D o t w).val
  · rw [cleanup_returned _ _ _ _ _ h, shape_append]
    exact ⟨(shape_stopOldContainers _ _ _ _ _).mono (by simp),
      (shape_cleanImages _ _ _ _ _).mono (by simp)⟩
  · rw [cleanup_fatal _ _ _ _ _ h]
    exact (shape_stopOldContainers _ _ _ _ _).mono (by simp)

/-! ## The scanner and the daemon behind the action functions -/

theorem token_fst (l : List Char) : (token l).1 = l.takeWhile (fun c => !isSpace c) := by
  induction l with
  | nil => rfl
  | cons c rest ih =>
    by_cases h : isSpace c = true
    · simp [token, h]
    · simp [token, h, ih]

theorem dropBlank_pos (c : Char) (rest : List Char)
    (h : (isSpace c && c != newline) = true) :
    (c :: rest).dropWhile (fun c => isSpace c && c != newline) =
      rest.dropWhile (fun c => isSpace c && c != newline) := by
  rw [List.dropWhile_cons]; exact if_pos h

theorem dropBlank_neg (c : Char) (rest : List Char)
    (h : ¬ (isSpace c && c != newline) = true) :
    (c :: rest).dropWhile (fun c => isSpace c && c != newline) = c :: rest := by
  rw [List.dropWhile_cons]; exact if_neg h

theorem takeWord_neg (c : Char) (rest : List Char) (h : isSpace c = true) :
    (c :: rest).takeWhile (fun c => !isSpace c) = [] := by
  rw [List.takeWhile_cons]; simp [h]

/-- The word `fmt.Scanln` stores is the first word of the line. -/
theorem scanln_fst (stdin : List Char) : (scanln stdin).1 = firstWord stdin := by
  induction stdin with
  | nil => rfl
  | cons c rest ih =>
    by_cases h1 : c = carriageReturn ∧ rest.head? = some newline
    · have hs : skipSpace (c :: rest) = skipSpace rest := by
        rw [skipSpace, if_pos h1]
      have hsc : scanln (c :: rest) = scanln rest := by
        unfold scanln; rw [hs]
      have hb : (isSpace c && c != newline) = true := by
        rw [h1.1]; decide
      rw [hsc, ih, firstWord, firstWord, dropBlank_pos c rest hb]
    · by_cases h2 : c = newline
      · subst h2
        have hs : skipSpace (newline :: rest) = (none, rest) := by
          rw [skipSpace, if_neg h1, if_pos rfl]
        have hsc : scanln (newline :: rest) = ("", rest) := by
          unfold scanln; rw [hs]
        have hb : ¬ (isSpace newline && newline != newline) = true := by decide
        rw [hsc, firstWord, dropBlank_neg newline rest hb,
          takeWord_neg newline rest (by decide)]
      · by_cases h3 : isSpace c = true
        · have hs : skipSpace (c :: rest) = skipSpace rest := by
            rw [skipSpace, if_neg h1, if_neg h2, if_pos h3]
          have hsc : scanln (c :: rest) = scanln rest := by
            unfold scanln; rw [hs]
          have hb : (isSpace c && c != newline) = true := by
            simp [h3, h2]
          rw [hsc, ih, firstWord, firstWord, dropBlank_pos c rest hb]
        · have hs : skipSpace (c :: rest) = (some (c :: rest), c :: rest) := by
            rw [skipSpace, if_neg h1, if_neg h2, if_neg h3]
          have hsc : (scanln (c :: rest)).1 = String.mk (token (c :: rest)).1 := by
            unfold scanln; rw [hs]
          have hb : ¬ (isSpace c && c != newline) = true := by
            simp [h3]
          rw [hsc, token_fst, firstWord, dropBlank_neg c rest hb]

theorem stopLoop_world (D : Daemon σ) (ids : List String) (errs : List GoError) (w : World σ) :
    (stopLoop D ids errs w).world = ⟨stopAll D ids w.daemon, w.stdin⟩ := by
  induction ids generalizing errs w with
  | nil => rfl
  | cons c cs ih =>
    simp only [stopLoop]
    split <;> simp [ih, stopAll]

theorem stopLoop_errors (D : Daemon σ) (ids : List String) (errs : List GoError)
    (w : World σ) : (stopLoop D ids errs w).val = errs ++ stopErrors D ids w.daemon := by
  induction ids generalizing errs w with
  | nil => simp [stopLoop, stopErrors]
  | cons c cs ih =>
    simp only [stopLoop]
    split
    · rename_i e he; simp [ih, stopErrors, he]
    · rename_i he; simp [ih, stopErrors, he]

theorem deleteLoop_world (D : Daemon σ) (ids : List String) (errs : List GoError)
    (w : World σ) : (deleteLoop D ids errs w).world = ⟨removeAll D ids w.daemon, w.stdin⟩ := by
  induction ids generalizing errs w with
  | nil => rfl
  | cons c cs ih => simp [deleteLoop, ih, removeAll]

theorem deleteLoop_errors (D : Daemon σ) (ids : List String) (errs : List GoError)
    (w : World σ) : (deleteLoop D ids errs w).val = errs ++ removeErrors D ids w.daemon := by
  induction ids generalizing errs w with
  | nil => simp [deleteLoop, removeErrors]
  | cons c cs ih =>
    simp only [deleteLoop, ih, removeErrors]
    cases (D.removeImage c w.daemon).1.2 <;> simp

theorem stopCalls_append (l m : List Event) :
    stopCalls (l ++ m) = stopCalls l ++ stopCalls m := by
  simp [stopCalls]

theorem stopCalls_cons (e : Event) (l : List Event) :
    stopCalls (e :: l) = stopCalls [e] ++ stopCalls l := stopCalls_append [e] l

theorem stopCalls_eq_nil {l : List Event} (h : ∀ e ∈ l, e.kind ≠ Kind.stopContainer) :
    stopCalls l = [] := by
  induction l with
  | nil => rfl
  | cons e l ih =>
    have he := h e (List.mem_cons_self _ _)
    have hl := ih (fun x hx => h x (List.mem_cons_of_mem _ hx))
    clear h ih
    cases e <;> first | exact absurd rfl he | simpa [stopCalls] using hl

theorem stopLoop_stopCalls (D : Daemon σ) (ids : List String) (errs : List GoError)
    (w : World σ) : stopCalls (stopLoop D ids errs w).events = ids := by
  induction ids generalizing errs w with
  | nil => rfl
  | cons c cs ih =>
    simp only [stopLoop]
    split
    · rw [stopCalls_cons, ih]; rfl
    · rw [stopCalls_cons _ (_ :: _), stopCalls_cons _ (stopLoop _ _ _ _).events, ih]; rfl

/-- The run of `stopCotainers`, told from the daemon: whether it acts is
decided by `-yes` and the first word on standard input. -/
theorem stopCotainers_effect (D : Daemon σ) (nc : Bool) (ids : List String) (w : World σ) :
    (stopCotainers D nc ids w).world =
      ⟨if nc = true ∨ firstWord w.stdin = "yes" then stopAll D ids w.daemon else w.daemon,
        if nc = true then w.stdin else (scanln w.stdin).2⟩ ∧
    (stopCotainers D nc ids w).val =
      (if nc = true ∨ firstWord w.stdin = "yes" then stopErrors D ids w.daemon else []) ∧
    stopCalls (stopCotainers D nc ids w).events =
      (if nc = true ∨ firstWord w.stdin = "yes" then ids else []) := by
  cases nc
  · by_cases h : (scanln w.stdin).1 = "yes"
    · have hw : firstWord w.stdin = "yes" := by rw [← scanln_fst]; exact h
      rw [stopCotainers_confirmed D ids w h, stopLoop_world, stopLoop_errors,
        stopCalls_append, stopLoop_stopCalls]
      simp [hw, askedStop, stopCalls]
    · have hw : ¬ firstWord w.stdin = "yes" := by rw [← scanln_fst]; exact h
      rw [stopCotainers_aborted D ids w h]
      simp [hw, askedStop, stopCalls]
  · rw [stopCotainers_noConfirm, stopLoop_world, stopLoop_errors, stopCalls_cons,
      stopLoop_stopCalls]
    simp [stopCalls]

/-- The run of `deleteImage`, told from the daemon. -/
theorem deleteImage_effect (D : Daemon σ) (nc : Bool) (ids : List String) (w : World σ) :
    (deleteImage D nc ids w).world =
      ⟨if nc = true ∨ firstWord w.stdin = "yes" then removeAll D ids w.daemon else w.daemon,
        if nc = true then w.stdin else (scanln w.stdin).2⟩ ∧
    (deleteImage D nc ids w).val =
      (if nc = true ∨ firstWord w.stdin = "yes" then removeErrors D ids w.daemon else []) ∧
    removeCalls (deleteImage D nc ids w).events =
      (if nc = true ∨ firstWord w.stdin = "yes" then ids else []) := by
  cases nc
  · by_cases h : (scanln w.stdin).1 = "yes"
    · have hw : firstWord w.stdin = "yes" := by rw [← scanln_fst]; exact h
      rw [deleteImage_confirmed D ids w h, deleteLoop_world, deleteLoop_errors,
        removeCalls_append, deleteLoop_removeCalls]
      simp [hw, askedDelete, removeCalls]
    · have hw : ¬ firstWord w.stdin = "yes" := by rw [← scanln_fst]; exact h
      rw [deleteImage_aborted D ids w h]
      simp [hw, askedDelete, removeCalls]
  · rw [deleteImage_noConfirm, deleteLoop_world, deleteLoop_errors, removeCalls_cons,
      deleteLoop_removeCalls]
    simp [removeCalls]

/-! ## The claims on the action functions -/

theorem firstWord_yes_line (rest : List Char) :
    firstWord ("yes".data ++ newline :: rest) = "yes" := by
  simp [firstWord, List.dropWhile_cons, List.takeWhile_cons, isSpace, newline]

theorem firstWord_blank_yes_line (rest : List Char) :
    firstWord (" yes".data ++ newline :: rest) = "yes" := by
  simp [firstWord, List.dropWhile_cons, List.takeWhile_cons, isSpace, newline]

theorem firstWord_yes_please_line (rest : List Char) :
    firstWord ("yes please".data ++ newline :: rest) = "yes" := by
  simp [firstWord, List.dropWhile_cons, List.takeWhile_cons, isSpace, newline]

theorem firstWord_empty_line (rest : List Char) : firstWord (newline :: rest) = "" := by
  simp [firstWord, List.dropWhile_cons, List.takeWhile_cons, isSpace, newline]

/-- C4, as stated, fails: the line `yes please` is not exactly `yes`, yet
`stopCotainers` and `deleteImage` issue their daemon calls, because
`fmt.Scanln` stores the first word of the line in `answer`; the container is
stopped and the image removed at the daemon. -/
theorem confirmation_line_counterexample :
    firstLine "yes please\n".data ≠ "yes" ∧
    calls (stopCotainers simDaemon false ["c1"] ⟨sampleSim, "yes please\n".data⟩).events =
      [Call.stopContainer "c1" 10] ∧
    (stopCotainers simDaemon false ["c1"]
      ⟨sampleSim, "yes please\n".data⟩).world.daemon.containers = [] ∧
    calls (deleteImage simDaemon false ["i1"] ⟨sampleSim, "yes please\n".data⟩).events =
      [Call.removeImage "i1"] ∧
    (deleteImage simDaemon false ["i1"]
      ⟨sampleSim, "yes please\n".data⟩).world.daemon.images =
      [⟨"i2", 7000, ["myrepo:latest"]⟩, ⟨"i3", 7100, ["<none>:<none>"]⟩] := by
  decide

/-- C4, amended: with `-yes` unset, for every id list, daemon and standard
input, `stopCotainers` and `deleteImage` issue their daemon calls (one per
id, in list order, each on the daemon state the call before left) exactly
when the first blank-delimited word of the line on standard input, which is
what `fmt.Scanln` stores in `answer`, is `yes`; otherwise they issue no
daemon call, leave the daemon as it was and return nil.  The lines `yes`,
` yes` and `yes please` have the first word `yes`; the empty line and the end
of input have the empty first word. -/
theorem confirmation_gate (D : Daemon σ) (ids : List String) (w : World σ) :
    (calls (stopCotainers D false ids w).events =
      if firstWord w.stdin = "yes" then ids.map (fun id => Call.stopContainer id 10)
      else []) ∧
    ((stopCotainers D false ids w).val =
      if firstWord w.stdin = "yes" then stopErrors D ids w.daemon else []) ∧
    ((stopCotainers D false ids w).world.daemon =
      if firstWord w.stdin = "yes" then stopAll D ids w.daemon else w.daemon) ∧
    (calls (deleteImage D false ids w).events =
      if firstWord w.stdin = "yes" then ids.map Call.removeImage else []) ∧
    ((deleteImage D false ids w).val =
      if firstWord w.stdin = "yes" then removeErrors D ids w.daemon else []) ∧
    ((deleteImage D false ids w).world.daemon =
      if firstWord w.stdin = "yes" then removeAll D ids w.daemon else w.daemon) ∧
    (∀ rest : List Char, firstWord ("yes".data ++ newline :: rest) = "yes") ∧
    (∀ rest : List Char, firstWord (" yes".data ++ newline :: rest) = "yes") ∧
    (∀ rest : List Char, firstWord ("yes please".data ++ newline :: rest) = "yes") ∧
    (∀ rest : List Char, firstWord (newline :: rest) = "") ∧
    firstWord [] = "" := by
  have hs := stopCotainers_effect D false ids w
  have hd := deleteImage_effect D false ids w
  refine ⟨?_, ?_, ?_, ?_, ?_, ?_, firstWord_yes_line, firstWord_blank_yes_line,
    firstWord_yes_please_line, firstWord_empty_line, rfl⟩
  · rw [stopCotainers_calls, scanln_fst]; simp
  · rw [hs.2.1]; simp
  · rw [hs.1]; simp
  · rw [deleteImage_calls, scanln_fst]; simp
  · rw [hd.2.1]; simp
  · rw [hd.1]; simp

/-- C5: once confirmed (the first word on standard input is `yes`), or with
`-yes`, `stopCotainers` calls `StopContainer(id, 10)` exactly once per id in
list order and `deleteImage` calls `RemoveImage(id)` exactly once per id in
list order, whatever the calls return: every call is made on the daemon
state the call before left, so the daemon ends in the state after all of
them; the returned list is exactly the errors the daemon returned to the
failing calls, in call order (nil when none failed), and these are the
errors the events of the calls carry. -/
theorem no_fail_fast (D : Daemon σ) (noConfirm : Bool) (ids : List String) (w : World σ)
    (h : noConfirm = true ∨ firstWord w.stdin = "yes") :
    calls (stopCotainers D noConfirm ids w).events =
      ids.map (fun id => Call.stopContainer id 10) ∧
    (stopCotainers D noConfirm ids w).world.daemon = stopAll D ids w.daemon ∧
    (stopCotainers D noConfirm ids w).val = stopErrors D ids w.daemon ∧
    (stopCotainers D noConfirm ids w).val =
      failures (stopCotainers D noConfirm ids w).events ∧
    calls (deleteImage D noConfirm ids w).events = ids.map Call.removeImage ∧
    (deleteImage D noConfirm ids w).world.daemon = removeAll D ids w.daemon ∧
    (deleteImage D noConfirm ids w).val = removeErrors D ids w.daemon ∧
    (deleteImage D noConfirm ids w).val = failures (deleteImage D noConfirm ids w).events := by
  have hs := stopCotainers_effect D noConfirm ids w
  have hd := deleteImage_effect D noConfirm ids w
  rw [if_pos h] at hs hd
  refine ⟨?_, ?_, ?_, stopCotainers_val D noConfirm ids w, ?_, ?_, ?_,
    deleteImage_val D noConfirm ids w⟩
  · rw [stopCotainers_calls, scanln_fst, if_pos h]
  · rw [hs.1]
  · rw [hs.2.1, if_pos h]
  · rw [deleteImage_calls, scanln_fst, if_pos h]
  · rw [hd.1]
  · rw [hd.2.1, if_pos h]

/-- C5 at a sample, confirmed at the prompt (no `-yes`, the line `yes`): the
sample daemon fails the stop of `c9` (not running) and the removal of `i9`
(not stored); the calls after the failure are made all the same, `c1` is
stopped and `i2` removed at the daemon, and the one error is returned. -/
theorem no_fail_fast_witness :
    calls (stopCotainers simDaemon false ["c9", "c1"] ⟨sampleSim, "yes\n".data⟩).events =
      [Call.stopContainer "c9" 10, Call.stopContainer "c1" 10] ∧
    (stopCotainers simDaemon false ["c9", "c1"]
      ⟨sampleSim, "yes\n".data⟩).world.daemon.containers = [] ∧
    (stopCotainers simDaemon false ["c9", "c1"] ⟨sampleSim, "yes\n".data⟩).val =
      ["No such container: c9"] ∧
    calls (deleteImage simDaemon false ["i1", "i9", "i2"]
      ⟨sampleSim, "yes\n".data⟩).events =
      [Call.removeImage "i1", Call.removeImage "i9", Call.removeImage "i2"] ∧
    (deleteImage simDaemon false ["i1", "i9", "i2"]
      ⟨sampleSim, "yes\n".data⟩).world.daemon.images = [⟨"i3", 7100, ["<none>:<none>"]⟩] ∧
    (deleteImage simDaemon false ["i1", "i9", "i2"] ⟨sampleSim, "yes\n".data⟩).val =
      ["No such image: i9"] :=
  have h1 := no_fail_fast simDaemon false ["c9", "c1"] ⟨sampleSim, "yes\n".data⟩
    (Or.inr (by decide))
  have h2 := no_fail_fast simDaemon false ["i1", "i9", "i2"] ⟨sampleSim, "yes\n".data⟩
    (Or.inr (by decide))
  ⟨h1.1, by rw [h1.2.1]; decide, h1.2.2.1.trans (by decide), h2.2.2.2.2.1,
    by rw [h2.2.2.2.2.2.1]; decide, h2.2.2.2.2.2.2.1.trans (by decide)⟩

/-- C7, as stated, fails: with `-yes` unset and an empty list of ids,
`stopCotainers` and `deleteImage` print the prompt and read the line `no`
from standard input. -/
theorem empty_list_prompt_counterexample :
    console (stopCotainers simDaemon false [] ⟨sampleSim, "no\nyes\n".data⟩).events =
      [Event.printf "This will stop %v images\n" [Val.int 0],
       Event.printf "Do you want to continue? (yes/no)\n" [],
       Event.scanln "no", Event.printf "%v" [Val.str "no"]] ∧
    (stopCotainers simDaemon false [] ⟨sampleSim, "no\nyes\n".data⟩).world.stdin =
      "yes\n".data ∧
    console (deleteImage simDaemon false [] ⟨sampleSim, "no\nyes\n".data⟩).events =
      [Event.printf "This will delete %v images\n" [Val.int 0],
       Event.printf "Do you want to continue? (yes/no)\n" [],
       Event.scanln "no", Event.printf "%v" [Val.str "no"]] ∧
    (deleteImage simDaemon false [] ⟨sampleSim, "no\nyes\n".data⟩).world.stdin =
      "yes\n".data := by
  decide

theorem console_stopLoop (D : Daemon σ) (ids : List String) (errs : List GoError)
    (w : World σ) : console (stopLoop D ids errs w).events = [] :=
  console_eq_nil (fun e he =>
    ⟨(shape_stopLoop D ids errs w).kind_ne (by decide) e he,
      (shape_stopLoop D ids errs w).kind_ne (by decide) e he⟩)

theorem console_deleteLoop (D : Daemon σ) (ids : List String) (errs : List GoError)
    (w : World σ) : console (deleteLoop D ids errs w).events = [] :=
  console_eq_nil (fun e he =>
    ⟨(shape_deleteLoop D ids errs w).kind_ne (by decide) e he,
      (shape_deleteLoop D ids errs w).kind_ne (by decide) e he⟩)

/-- C7, amended: the confirmation gate is entered whenever `-yes` is unset,
whatever the list of ids, the empty list included: `stopCotainers` and
`deleteImage` print the count (0 for the empty list) and the question, and
read standard input once; with `-yes` set they print no prompt and read
nothing. -/
theorem gate_whatever_list (D : Daemon σ) (ids : List String) (w : World σ) :
    (console (stopCotainers D false ids w).events =
      [Event.printf "This will stop %v images\n" [Val.int ids.length],
        Event.printf "Do you want to continue? (yes/no)\n" [],
        Event.scanln (scanln w.stdin).1] ++
      (if (scanln w.stdin).1 = "yes" then []
        else [Event.printf "%v" [Val.str (scanln w.stdin).1]])) ∧
    (stopCotainers D false ids w).world.stdin = (scanln w.stdin).2 ∧
    console (stopCotainers D true ids w).events = [] ∧
    (stopCotainers D true ids w).world.stdin = w.stdin ∧
    (console (deleteImage D false ids w).events =
      [Event.printf "This will delete %v images\n" [Val.int ids.length],
        Event.printf "Do you want to continue? (yes/no)\n" [],
        Event.scanln (scanln w.stdin).1] ++
      (if (scanln w.stdin).1 = "yes" then []
        else [Event.printf "%v" [Val.str (scanln w.stdin).1]])) ∧
    (deleteImage D false ids w).world.stdin = (scanln w.stdin).2 ∧
    console (deleteImage D true ids w).events = [] ∧
    (deleteImage D true ids w).world.stdin = w.stdin := by
  refine ⟨?_, ?_, ?_, ?_, ?_, ?_, ?_, ?_⟩
  · by_cases h : (scanln w.stdin).1 = "yes"
    · rw [stopCotainers_confirmed D ids w h, console_append, console_stopLoop, h, if_pos rfl]
      rfl
    · rw [stopCotainers_aborted D ids w h, if_neg h]; rfl
  · by_cases h : (scanln w.stdin).1 = "yes"
    · rw [stopCotainers_confirmed D ids w h]; exact stopLoop_stdin _ _ _ _
    · rw [stopCotainers_aborted D ids w h]
  · rw [stopCotainers_noConfirm, console_cons, console_stopLoop]; rfl
  · rw [stopCotainers_noConfirm]; exact stopLoop_stdin _ _ _ _
  · by_cases h : (scanln w.stdin).1 = "yes"
    · rw [deleteImage_confirmed D ids w h, console_append, console_deleteLoop, h, if_pos rfl]
      rfl
    · rw [deleteImage_aborted D ids w h, if_neg h]; rfl
  · by_cases h : (scanln w.stdin).1 = "yes"
    · rw [deleteImage_confirmed D ids w h]; exact deleteLoop_stdin _ _ _ _
    · rw [deleteImage_aborted D ids w h]
  · rw [deleteImage_noConfirm, console_cons, console_deleteLoop]; rfl
  · rw [deleteImage_noConfirm]; exact deleteLoop_stdin _ _ _ _

/-! ## The claims on `main` -/

/-- C9: when `-clean-none` is false and `-clean-old` and `-stop-old` are
empty, whatever `-docker` and `-yes` are, `main` prints the usage text and
returns: the usage is its only event (no daemon operation, no prompt, no
read), the daemon and standard input are untouched. -/
theorem main_no_action (lib : Lib) (D : Daemon σ) (o : Options) (w : World σ)
    (hnone : o.cleanNone = false) (hold : o.cleanOld = "") (hstop : o.stopOld = "") :
    main lib D o w = ⟨Exit.returned, w, [Event.usage]⟩ ∧
    calls (main lib D o w).events = [] ∧ console (main lib D o w).events = [] := by
  have h : main lib D o w = ⟨Exit.returned, w, [Event.usage]⟩ := by
    simp [main, hnone, hold, hstop]
  refine ⟨h, ?_, ?_⟩ <;> rw [h] <;> rfl

/-- C9 at a sample: no action option, `-yes` set and a custom `-docker`. -/
theorem main_no_action_witness :
    main hmsLib simDaemon ⟨"", false, "", "tcp://10.0.0.1:2375", true⟩ ⟨sampleSim, []⟩ =
      ⟨Exit.returned, ⟨sampleSim, []⟩, [Event.usage]⟩ :=
  (main_no_action hmsLib simDaemon ⟨"", false, "", "tcp://10.0.0.1:2375", true⟩
    ⟨sampleSim, []⟩ rfl rfl rfl).1

/-- A run of `main` with an action in which the connection and the
system-time query succeed: the two calls, then lines 114-186 at the time
the daemon reported. -/
theorem main_run (lib : Lib) (D : Daemon σ) (o : Options) (w : World σ) {t : Int} {d1 d2 : σ}
    (hact : ¬ (o.cleanNone = false ∧ o.cleanOld = "" ∧ o.stopOld = ""))
    (hconn : D.newDockerClient o.dockerURL w.daemon = (none, d1))
    (hinfo : D.info d1 = ((t, none), d2)) :
    main lib D o w =
      ⟨(cleanup lib D o t ⟨d2, w.stdin⟩).val, (cleanup lib D o t ⟨d2, w.stdin⟩).world,
        Event.newDockerClient o.dockerURL none :: Event.info t none ::
          (cleanup lib D o t ⟨d2, w.stdin⟩).events⟩ := by
  simp only [main, if_neg hact, hconn, hinfo]

theorem main_info_unique (lib : Lib) (D : Daemon σ) (o : Options) (w : World σ) {t : Int}
    {d1 d2 : σ} (hact : ¬ (o.cleanNone = false ∧ o.cleanOld = "" ∧ o.stopOld = ""))
    (hconn : D.newDockerClient o.dockerURL w.daemon = (none, d1))
    (hinfo : D.info d1 = ((t, none), d2)) (t' : Int) (e : Option GoError)
    (h' : Event.info t' e ∈ (main lib D o w).events) : t' = t := by
  rw [main_run lib D o w hact hconn hinfo] at h'
  simp only [List.mem_cons] at h'
  rcases h' with h' | h' | h'
  · cases h'
  · injection h' with h1 _
  · exact absurd h' ((shape_cleanup _ _ _ _ _).not_mem (by simp [Event.kind]))

theorem stopOld_run (lib : Lib) (D : Daemon σ) (o : Options) (t : Int) (w : World σ)
    {running : List Container} {d3 : σ} (hset : o.stopOld ≠ "")
    (hp : (lib.parseDuration o.stopOld).2 = none)
    (hlist : D.listContainers false false "" w.daemon = ((running, none), d3)) :
    stopOldContainers lib D o t w =
      ⟨Exit.returned,
        (stopCotainers D o.noConfirm
          (oldContainerIds t (lib.seconds (lib.parseDuration o.stopOld).1) running)
          ⟨d3, w.stdin⟩).world,
        [Event.logPrintf "Stoppping containers that are running longer than: %v"
            [Val.dur (lib.parseDuration o.stopOld).1],
          Event.listContainers false false "" running none] ++
        (selectContainers t (lib.seconds (lib.parseDuration o.stopOld).1) running []).2 ++
        (stopCotainers D o.noConfirm
          (oldContainerIds t (lib.seconds (lib.parseDuration o.stopOld).1) running)
          ⟨d3, w.stdin⟩).events ++
        logErrors (stopCotainers D o.noConfirm
          (oldContainerIds t (lib.seconds (lib.parseDuration o.stopOld).1) running)
          ⟨d3, w.stdin⟩).val⟩ := by
  rw [stopOld_ok _ _ _ _ _ hset hp (by rw [hlist])]
  simp only [hlist, selectContainers_fst, List.nil_append, oldContainerIds]

/-- A stop phase that does not abort returns and leaves the world
`worldAfterStop` tells. -/
theorem stopOld_world (lib : Lib) (D : Daemon σ) (o : Options) (t : Int) (w : World σ)
    (hstop : o.stopOld ≠ "" → (lib.parseDuration o.stopOld).2 = none ∧
      (D.listContainers false false "" w.daemon).1.2 = none) :
    (stopOldContainers lib D o t w).val = Exit.returned ∧
    (stopOldContainers lib D o t w).world = worldAfterStop lib D o t w := by
  by_cases h : o.stopOld = ""
  · rw [stopOld_unset _ _ _ _ _ h]
    simp [worldAfterStop, h]
  · rw [stopOld_ok _ _ _ _ _ h (hstop h).1 (hstop h).2]
    refine ⟨rfl, ?_⟩
    simp only [(stopCotainers_effect D o.noConfirm _ _).1, selectContainers_fst,
      List.nil_append, worldAfterStop, if_neg h, oldContainerIds]

theorem stopCalls_cleanImages (lib : Lib) (D : Daemon σ) (o : Options) (t : Int)
    (w : World σ) : stopCalls (cleanImages lib D o t w).events = [] :=
  stopCalls_eq_nil ((shape_cleanImages lib D o t w).kind_ne (by decide))

theorem stopArgs_cleanImages (lib : Lib) (D : Daemon σ) (o : Options) (t : Int)
    (w : World σ) : stopArgs (cleanImages lib D o t w).events = [] :=
  stopArgs_eq_nil ((shape_cleanImages lib D o t w).kind_ne (by decide))

/-- C1: in every run of `main` with `-stop-old` set and well formed in which
the connection succeeds, the daemon reports the system time `t` and then
returns the container listing `running`, whatever `-yes`, standard input and
the other options are: `stopCotainers` is called once, with exactly the ids,
in listing order, of the containers with `t - Created > d` on `int64`, `d`
being the parsed `-stop-old` in seconds; the comparison is strict, so a
container with `t - Created = d`, or less, is not among those selected; and
`StopContainer` is called on exactly those ids when `-yes` is set or the
first word on standard input is `yes`, on none otherwise. -/
theorem main_stop_list (lib : Lib) (D : Daemon σ) (o : Options) (w : World σ) (t : Int)
    (running : List Container) (d1 d2 d3 : σ)
    (hset : o.stopOld ≠ "") (hp : (lib.parseDuration o.stopOld).2 = none)
    (hconn : D.newDockerClient o.dockerURL w.daemon = (none, d1))
    (hinfo : D.info d1 = ((t, none), d2))
    (hlist : D.listContainers false false "" d2 = ((running, none), d3)) :
    stopArgs (main lib D o w).events =
      [(running.filter (fun c => decide (subInt64 t c.Created >
          lib.seconds (lib.parseDuration o.stopOld).1))).map Container.Id] ∧
    stopCalls (main lib D o w).events =
      (if o.noConfirm = true ∨ firstWord w.stdin = "yes" then
        (running.filter (fun c => decide (subInt64 t c.Created >
          lib.seconds (lib.parseDuration o.stopOld).1))).map Container.Id
      else []) ∧
    ∀ c ∈ running, subInt64 t c.Created ≤ lib.seconds (lib.parseDuration o.stopOld).1 →
      c ∉ running.filter (fun c => decide (subInt64 t c.Created >
          lib.seconds (lib.parseDuration o.stopOld).1)) := by
  have hact : ¬ (o.cleanNone = false ∧ o.cleanOld = "" ∧ o.stopOld = "") :=
    fun h => hset h.2.2
  have hrun := stopOld_run lib D o t ⟨d2, w.stdin⟩ hset hp hlist
  have hcu := cleanup_returned lib D o t ⟨d2, w.stdin⟩ (by rw [hrun])
  refine ⟨?_, ?_, ?_⟩
  · rw [main_run lib D o w hact hconn hinfo, hcu, stopArgs_cons _ (_ :: _),
      stopArgs_cons _ (_ ++ _), stopArgs_append, stopArgs_cleanImages, hrun]
    simp only [stopArgs_append, stopCotainers_stopArgs,
      stopArgs_eq_nil ((shape_selectContainers _ _ _ _).kind_ne (by decide)),
      stopArgs_eq_nil ((shape_logErrors _).kind_ne (by decide))]
    rfl
  · rw [main_run lib D o w hact hconn hinfo, hcu, stopCalls_cons _ (_ :: _),
      stopCalls_cons _ (_ ++ _), stopCalls_append, stopCalls_cleanImages, hrun]
    simp only [stopCalls_append, (stopCotainers_effect D o.noConfirm _ _).2.2,
      stopCalls_eq_nil ((shape_selectContainers _ _ _ _).kind_ne (by decide)),
      stopCalls_eq_nil ((shape_logErrors _).kind_ne (by decide))]
    simp [stopCalls, oldContainerIds]
  · intro c _ hc hmem
    simp only [List.mem_filter, decide_eq_true_eq] at hmem
    omega

/-- C1 at the scenario of the specification, without `-yes`: a container
created at 3600 and the daemon time 7200 (age 3600 s).  `30m` selects it,
whether the prompt is answered `yes` (it is stopped) or `no` (it is not);
`2h` does not select it, and neither does `1h`, the age being equal to the
threshold. -/
theorem main_stop_list_witness :
    stopArgs (main hmsLib simDaemon ⟨"", false, "30m", "unix:///var/run/docker.sock", false⟩
      ⟨sampleSim, "yes\n".data⟩).events = [["c1"]] ∧
    stopCalls (main hmsLib simDaemon ⟨"", false, "30m", "unix:///var/run/docker.sock", false⟩
      ⟨sampleSim, "yes\n".data⟩).events = ["c1"] ∧
    stopArgs (main hmsLib simDaemon ⟨"", false, "30m", "unix:///var/run/docker.sock", false⟩
      ⟨sampleSim, "no\n".data⟩).events = [["c1"]] ∧
    stopCalls (main hmsLib simDaemon ⟨"", false, "30m", "unix:///var/run/docker.sock", false⟩
      ⟨sampleSim, "no\n".data⟩).events = [] ∧
    stopArgs (main hmsLib simDaemon ⟨"", false, "2h", "unix:///var/run/docker.sock", false⟩
      ⟨sampleSim, "yes\n".data⟩).events = [[]] ∧
    stopArgs (main hmsLib simDaemon ⟨"", false, "1h", "unix:///var/run/docker.sock", true⟩
      ⟨sampleSim, []⟩).events = [[]] :=
  have h1 := main_stop_list hmsLib simDaemon
    ⟨"", false, "30m", "unix:///var/run/docker.sock", false⟩ ⟨sampleSim, "yes\n".data⟩ 7200
    sampleSim.containers sampleSim sampleSim sampleSim (by decide) (by decide) rfl rfl rfl
  have h2 := main_stop_list hmsLib simDaemon
    ⟨"", false, "30m", "unix:///var/run/docker.sock", false⟩ ⟨sampleSim, "no\n".data⟩ 7200
    sampleSim.containers sampleSim sampleSim sampleSim (by decide) (by decide) rfl rfl rfl
  have h3 := main_stop_list hmsLib simDaemon
    ⟨"", false, "2h", "unix:///var/run/docker.sock", false⟩ ⟨sampleSim, "yes\n".data⟩ 7200
    sampleSim.containers sampleSim sampleSim sampleSim (by decide) (by decide) rfl rfl rfl
  have h4 := main_stop_list hmsLib simDaemon
    ⟨"", false, "1h", "unix:///var/run/docker.sock", true⟩ ⟨sampleSim, []⟩ 7200
    sampleSim.containers sampleSim sampleSim sampleSim (by decide) (by decide) rfl rfl rfl
  ⟨h1.1.trans (by decide), h1.2.1.trans (by decide), h2.1.trans (by decide),
    h2.2.1.trans (by decide), h3.1.trans (by decide), h4.1.trans (by decide)⟩


theorem deleteSelected_events (D : Daemon σ) (o : Options) (images : List Image)
    (toDelete : List String) (w : World σ) (h : o.cleanOld ≠ "" ∨ o.cleanNone = true) :
    ∃ logs : List Event, Shape [Kind.logPrintf] logs ∧ loggedErrors logs = [] ∧
      (deleteSelected D o images toDelete w).events =
        logs ++
        (deleteImage D o.noConfirm (toDelete ++
          (if o.cleanNone = true then
            (images.filter (fun i => decide (i.RepoTags = ["<none>:<none>"]))).map Image.Id
          else [])) w).events ++
        logErrors (deleteImage D o.noConfirm (toDelete ++
          (if o.cleanNone = true then
            (images.filter (fun i => decide (i.RepoTags = ["<none>:<none>"]))).map Image.Id
          else [])) w).val := by
  rw [deleteSelected_eq _ _ _ _ _ h]
  by_cases hn : o.cleanNone = true
  · simp only [if_pos hn, selectUntagged_fst]
    exact ⟨_, shape_selectUntagged _ _, loggedErrors_selectUntagged _ _, rfl⟩
  · simp only [if_neg hn, List.append_nil]
    exact ⟨[], shape_nil _, rfl, rfl⟩

theorem cleanListed_events (lib : Lib) (D : Daemon σ) (o : Options) (t : Int)
    (images : List Image) (w : World σ) (h : o.cleanOld ≠ "" ∨ o.cleanNone = true)
    (hp : o.cleanOld ≠ "" → (lib.parseDuration o.cleanOld).2 = none) :
    (cleanListed lib D o t images w).val = Exit.returned ∧
    ∃ logs : List Event, Shape [Kind.logPrintf] logs ∧ loggedErrors logs = [] ∧
      (cleanListed lib D o t images w).events =
        logs ++ (deleteImage D o.noConfirm (selectedImages lib o t images) w).events ++
          logErrors (deleteImage D o.noConfirm (selectedImages lib o t images) w).val := by
  by_cases ho : o.cleanOld = ""
  · rw [cleanListed_unset _ _ _ _ _ _ ho]
    refine ⟨by rw [deleteSelected_eq _ _ _ _ _ h], ?_⟩
    obtain ⟨logs, hs, hl, he⟩ := deleteSelected_events D o images [] w h
    refine ⟨logs, hs, hl, ?_⟩
    rw [he]
    simp [selectedImages, ho]
  · rw [cleanListed_ok _ _ _ _ _ _ ho (hp ho)]
    refine ⟨by rw [deleteSelected_eq _ _ _ _ _ h], ?_⟩
    obtain ⟨logs, hs, hl, he⟩ := deleteSelected_events D o images
      (selectOldImages t (lib.parseDuration o.cleanOld).1
        (lib.seconds (lib.parseDuration o.cleanOld).1) images []).1 w h
    refine ⟨(selectOldImages t (lib.parseDuration o.cleanOld).1
        (lib.seconds (lib.parseDuration o.cleanOld).1) images []).2 ++ logs, ?_, ?_, ?_⟩
    · rw [shape_append]; exact ⟨shape_selectOldImages _ _ _ _ _, hs⟩
    · rw [loggedErrors_append, loggedErrors_selectOldImages, hl]; rfl
    · rw [he]
      simp only [selectOldImages_fst, List.nil_append, selectedImages, if_pos ho,
        List.append_assoc]

theorem deleteSelected_list (o : Options) (images : List Image) (toDelete : List String) :
    (if o.cleanNone = true then selectUntagged images toDelete else (toDelete, [])).1 =
      toDelete ++ (if o.cleanNone = true then
        (images.filter (fun i => decide (i.RepoTags = ["<none>:<none>"]))).map Image.Id
      else []) := by
  by_cases hn : o.cleanNone = true
  · simp only [if_pos hn, selectUntagged_fst]
  · simp only [if_neg hn, List.append_nil]

theorem cleanListed_world (lib : Lib) (D : Daemon σ) (o : Options) (t : Int)
    (images : List Image) (w : World σ) (h : o.cleanOld ≠ "" ∨ o.cleanNone = true)
    (hp : o.cleanOld ≠ "" → (lib.parseDuration o.cleanOld).2 = none) :
    (cleanListed lib D o t images w).world =
      (deleteImage D o.noConfirm (selectedImages lib o t images) w).world := by
  by_cases ho : o.cleanOld = ""
  · rw [cleanListed_unset _ _ _ _ _ _ ho, deleteSelected_eq _ _ _ _ _ h, deleteSelected_list]
    simp [selectedImages, ho]
  · rw [cleanListed_ok _ _ _ _ _ _ ho (hp ho), deleteSelected_eq _ _ _ _ _ h,
      deleteSelected_list]
    simp only [selectOldImages_fst, List.nil_append, selectedImages, if_pos ho]

/-- A run of `main` that cleans images, does not abort before the image
listing and gets the listing `images`: `main` returns; its events are those
up to the selection logs, none of them a call of `deleteImage` or of
`RemoveImage`, then `deleteImage` on the selected ids and the logging of its
errors; its world is the one `deleteImage` leaves. -/
theorem main_clean_run (lib : Lib) (D : Daemon σ) (o : Options) (w : World σ) {t : Int}
    {images : List Image} {d1 d2 d4 : σ}
    (hact : o.cleanOld ≠ "" ∨ o.cleanNone = true)
    (hp : o.cleanOld ≠ "" → (lib.parseDuration o.cleanOld).2 = none)
    (hconn : D.newDockerClient o.dockerURL w.daemon = (none, d1))
    (hinfo : D.info d1 = ((t, none), d2))
    (hstop : o.stopOld ≠ "" → (lib.parseDuration o.stopOld).2 = none ∧
      (D.listContainers false false "" d2).1.2 = none)
    (himgs : D.listImages (worldAfterStop lib D o t ⟨d2, w.stdin⟩).daemon =
      ((images, none), d4)) :
    (main lib D o w).val = Exit.returned ∧
    (main lib D o w).world =
      (deleteImage D o.noConfirm (selectedImages lib o t images)
        ⟨d4, (worldAfterStop lib D o t ⟨d2, w.stdin⟩).stdin⟩).world ∧
    ∃ pre : List Event,
      Shape [Kind.newDockerClient, Kind.info, Kind.logFatalf, Kind.logPrintf,
        Kind.listContainers, Kind.stopCotainers, Kind.printf, Kind.scanln,
        Kind.stopContainer, Kind.listImages] pre ∧
      (main lib D o w).events =
        pre ++
        (deleteImage D o.noConfirm (selectedImages lib o t images)
          ⟨d4, (worldAfterStop lib D o t ⟨d2, w.stdin⟩).stdin⟩).events ++
        logErrors (deleteImage D o.noConfirm (selectedImages lib o t images)
          ⟨d4, (worldAfterStop lib D o t ⟨d2, w.stdin⟩).stdin⟩).val := by
  have hmain : ¬ (o.cleanNone = false ∧ o.cleanOld = "" ∧ o.stopOld = "") := by
    rintro ⟨h1, h2, _⟩
    rcases hact with h | h
    · exact h h2
    · rw [h1] at h; cases h
  obtain ⟨hret, hworld⟩ := stopOld_world lib D o t ⟨d2, w.stdin⟩ hstop
  have hcu := cleanup_returned lib D o t ⟨d2, w.stdin⟩ hret
  have hclean := cleanImages_ok lib D o t (stopOldContainers lib D o t ⟨d2, w.stdin⟩).world
    hact (by rw [hworld, himgs])
  rw [hworld, himgs] at hclean
  obtain ⟨hv, logs, hs, _, he⟩ := cleanListed_events lib D o t images
    ⟨d4, (worldAfterStop lib D o t ⟨d2, w.stdin⟩).stdin⟩ hact hp
  have hw := cleanListed_world lib D o t images
    ⟨d4, (worldAfterStop lib D o t ⟨d2, w.stdin⟩).stdin⟩ hact hp
  rw [hworld] at hcu
  refine ⟨?_, ?_, Event.newDockerClient o.dockerURL none :: Event.info t none ::
    ((stopOldContainers lib D o t ⟨d2, w.stdin⟩).events ++
      Event.listImages images none :: logs), ?_, ?_⟩
  · rw [main_run lib D o w hmain hconn hinfo, hcu, hclean]; exact hv
  · rw [main_run lib D o w hmain hconn hinfo, hcu, hclean]; exact hw
  · simp only [shape_cons, shape_append]
    exact ⟨by simp [Event.kind], by simp [Event.kind],
      (shape_stopOldContainers _ _ _ _ _).mono (by simp), by simp [Event.kind],
      hs.mono (by simp)⟩
  · rw [main_run lib D o w hmain hconn hinfo, hcu, hclean, he]
    simp

theorem main_clean_deleteArgs (lib : Lib) (D : Daemon σ) (o : Options) (w : World σ) {t : Int}
    {images : List Image} {d1 d2 d4 : σ}
    (hact : o.cleanOld ≠ "" ∨ o.cleanNone = true)
    (hp : o.cleanOld ≠ "" → (lib.parseDuration o.cleanOld).2 = none)
    (hconn : D.newDockerClient o.dockerURL w.daemon = (none, d1))
    (hinfo : D.info d1 = ((t, none), d2))
    (hstop : o.stopOld ≠ "" → (lib.parseDuration o.stopOld).2 = none ∧
      (D.listContainers false false "" d2).1.2 = none)
    (himgs : D.listImages (worldAfterStop lib D o t ⟨d2, w.stdin⟩).daemon =
      ((images, none), d4)) :
    deleteArgs (main lib D o w).events = [selectedImages lib o t images] := by
  obtain ⟨_, _, pre, hs, hev⟩ := main_clean_run lib D o w hact hp hconn hinfo hstop himgs
  rw [hev, deleteArgs_append, deleteArgs_append, deleteImage_deleteArgs,
    deleteArgs_eq_nil (hs.kind_ne (by decide)),
    deleteArgs_eq_nil ((shape_logErrors _).kind_ne (by decide))]
  rfl

theorem main_clean_removeCalls (lib : Lib) (D : Daemon σ) (o : Options) (w : World σ)
    {t : Int} {images : List Image} {d1 d2 d4 : σ}
    (hact : o.cleanOld ≠ "" ∨ o.cleanNone = true)
    (hp : o.cleanOld ≠ "" → (lib.parseDuration o.cleanOld).2 = none)
    (hconn : D.newDockerClient o.dockerURL w.daemon = (none, d1))
    (hinfo : D.info d1 = ((t, none), d2))
    (hstop : o.stopOld ≠ "" → (lib.parseDuration o.stopOld).2 = none ∧
      (D.listContainers false false "" d2).1.2 = none)
    (himgs : D.listImages (worldAfterStop lib D o t ⟨d2, w.stdin⟩).daemon =
      ((images, none), d4)) :
    removeCalls (main lib D o w).events =
      (if o.noConfirm = true ∨
          firstWord (worldAfterStop lib D o t ⟨d2, w.stdin⟩).stdin = "yes" then
        selectedImages lib o t images
      else []) ∧
    (main lib D o w).world.daemon =
      (if o.noConfirm = true ∨
          firstWord (worldAfterStop lib D o t ⟨d2, w.stdin⟩).stdin = "yes" then
        removeAll D (selectedImages lib o t images) d4
      else d4) := by
  obtain ⟨_, hw, pre, hs, hev⟩ := main_clean_run lib D o w hact hp hconn hinfo hstop himgs
  constructor
  · rw [hev, removeCalls_append, removeCalls_append, (deleteImage_effect D _ _ _).2.2,
      removeCalls_eq_nil (hs.kind_ne (by decide)),
      removeCalls_eq_nil ((shape_logErrors _).kind_ne (by decide))]
    simp
  · rw [hw, (deleteImage_effect D _ _ _).1]


/-- C2: in every run of `main` with `-clean-old` set and well formed and
`-clean-none` unset in which the connection succeeds, the daemon reports the
system time `t`, the stop phase does not abort and the daemon then returns
the image listing `images`, whatever `-yes`, `-stop-old` and standard input
are: `deleteImage` is called once, with exactly the ids, in listing order,
of the images with `t - Created > d` on `int64` (strict), `d` being the
parsed `-clean-old` in seconds; `RemoveImage` is called on exactly those ids
when `-yes` is set or the first word read at the delete prompt is `yes`, on
none otherwise; `t` is the one system time of the run, the one the
container ages use. -/
theorem main_delete_list_age (lib : Lib) (D : Daemon σ) (o : Options) (w : World σ) (t : Int)
    (images : List Image) (d1 d2 d4 : σ)
    (hold : o.cleanOld ≠ "") (hnone : o.cleanNone = false)
    (hp : (lib.parseDuration o.cleanOld).2 = none)
    (hconn : D.newDockerClient o.dockerURL w.daemon = (none, d1))
    (hinfo : D.info d1 = ((t, none), d2))
    (hstop : o.stopOld ≠ "" → (lib.parseDuration o.stopOld).2 = none ∧
      (D.listContainers false false "" d2).1.2 = none)
    (himgs : D.listImages (worldAfterStop lib D o t ⟨d2, w.stdin⟩).daemon =
      ((images, none), d4)) :
    deleteArgs (main lib D o w).events =
      [(images.filter (fun i => decide (subInt64 t i.Created >
          lib.seconds (lib.parseDuration o.cleanOld).1))).map Image.Id] ∧
    removeCalls (main lib D o w).events =
      (if o.noConfirm = true ∨
          firstWord (worldAfterStop lib D o t ⟨d2, w.stdin⟩).stdin = "yes" then
        (images.filter (fun i => decide (subInt64 t i.Created >
          lib.seconds (lib.parseDuration o.cleanOld).1))).map Image.Id
      else []) ∧
    ∀ (t' : Int) (e : Option GoError),
      Event.info t' e ∈ (main lib D o w).events → t' = t := by
  have hsel : selectedImages lib o t images =
      (images.filter (fun i => decide (subInt64 t i.Created >
          lib.seconds (lib.parseDuration o.cleanOld).1))).map Image.Id := by
    simp [selectedImages, hold, hnone]
  refine ⟨?_, ?_, main_info_unique lib D o w (fun h => hold h.2.1) hconn hinfo⟩
  · rw [main_clean_deleteArgs lib D o w (Or.inl hold) (fun _ => hp) hconn hinfo hstop himgs,
      hsel]
  · rw [(main_clean_removeCalls lib D o w (Or.inl hold) (fun _ => hp) hconn hinfo hstop
      himgs).1, hsel]

/-- C2 at a sample, without `-yes`: at time 7200 with `-clean-old 30m`, of
the images created at 100, 7000 and 7100 only the first is handed to
`deleteImage`.  With `-stop-old 30m` too and the lines `no` and `yes` on
standard input, the container is not stopped and the image is removed; with
the line `no` alone nothing is removed.  With `-clean-old 7100s` no image is
selected, the age of the first being equal to the threshold. -/
theorem main_delete_list_age_witness :
    deleteArgs (main hmsLib simDaemon
      ⟨"30m", false, "30m", "unix:///var/run/docker.sock", false⟩
      ⟨sampleSim, "no\nyes\n".data⟩).events = [["i1"]] ∧
    removeCalls (main hmsLib simDaemon
      ⟨"30m", false, "30m", "unix:///var/run/docker.sock", false⟩
      ⟨sampleSim, "no\nyes\n".data⟩).events = ["i1"] ∧
    deleteArgs (main hmsLib simDaemon ⟨"30m", false, "", "unix:///var/run/docker.sock", false⟩
      ⟨sampleSim, "no\n".data⟩).events = [["i1"]] ∧
    removeCalls (main hmsLib simDaemon ⟨"30m", false, "", "unix:///var/run/docker.sock", false⟩
      ⟨sampleSim, "no\n".data⟩).events = [] ∧
    deleteArgs (main hmsLib simDaemon ⟨"7100s", false, "", "unix:///var/run/docker.sock", true⟩
      ⟨sampleSim, []⟩).events = [[]] :=
  have h1 := main_delete_list_age hmsLib simDaemon
    ⟨"30m", false, "30m", "unix:///var/run/docker.sock", false⟩
    ⟨sampleSim, "no\nyes\n".data⟩ 7200 sampleSim.images sampleSim sampleSim sampleSim
    (by decide) rfl (by decide) rfl rfl (by decide) (by decide)
  have h2 := main_delete_list_age hmsLib simDaemon
    ⟨"30m", false, "", "unix:///var/run/docker.sock", false⟩
    ⟨sampleSim, "no\n".data⟩ 7200 sampleSim.images sampleSim sampleSim sampleSim
    (by decide) rfl (by decide) rfl rfl (by decide) (by decide)
  have h3 := main_delete_list_age hmsLib simDaemon
    ⟨"7100s", false, "", "unix:///var/run/docker.sock", true⟩
    ⟨sampleSim, []⟩ 7200 sampleSim.images sampleSim sampleSim sampleSim
    (by decide) rfl (by decide) rfl rfl (by decide) (by decide)
  ⟨h1.1.trans (by decide), h1.2.1.trans (by decide), h2.1.trans (by decide),
    h2.2.1.trans (by decide), h3.1.trans (by decide)⟩

/-- C3: in every run of `main` with `-clean-none` set and `-clean-old` unset
in which the connection and the system-time query succeed, the stop phase
does not abort and the daemon then returns the image listing `images`,
whatever `-yes`, `-stop-old` and standard input are: `deleteImage` is called
once, with exactly the ids, in listing order, of the images whose `RepoTags`
is the one-element sequence of the sentinel, so that an id is in that list
if and only if a listed image with that id has exactly these tags;
`RemoveImage` is called on exactly those ids when `-yes` is set or the first
word read at the delete prompt is `yes`, on none otherwise. -/
theorem main_delete_list_untagged (lib : Lib) (D : Daemon σ) (o : Options) (w : World σ)
    (t : Int) (images : List Image) (d1 d2 d4 : σ)
    (hold : o.cleanOld = "") (hnone : o.cleanNone = true)
    (hconn : D.newDockerClient o.dockerURL w.daemon = (none, d1))
    (hinfo : D.info d1 = ((t, none), d2))
    (hstop : o.stopOld ≠ "" → (lib.parseDuration o.stopOld).2 = none ∧
      (D.listContainers false false "" d2).1.2 = none)
    (himgs : D.listImages (worldAfterStop lib D o t ⟨d2, w.stdin⟩).daemon =
      ((images, none), d4)) :
    deleteArgs (main lib D o w).events =
      [(images.filter (fun i => decide (i.RepoTags = ["<none>:<none>"]))).map Image.Id] ∧
    (∀ id : String,
      id ∈ (images.filter (fun i => decide (i.RepoTags = ["<none>:<none>"]))).map Image.Id ↔
        ∃ i ∈ images, i.Id = id ∧ i.RepoTags = ["<none>:<none>"]) ∧
    removeCalls (main lib D o w).events =
      (if o.noConfirm = true ∨
          firstWord (worldAfterStop lib D o t ⟨d2, w.stdin⟩).stdin = "yes" then
        (images.filter (fun i => decide (i.RepoTags = ["<none>:<none>"]))).map Image.Id
      else []) := by
  have hsel : selectedImages lib o t images =
      (images.filter (fun i => decide (i.RepoTags = ["<none>:<none>"]))).map Image.Id := by
    simp [selectedImages, hold, hnone]
  have hp : o.cleanOld ≠ "" → (lib.parseDuration o.cleanOld).2 = none :=
    fun h => absurd hold h
  refine ⟨?_, ?_, ?_⟩
  · rw [main_clean_deleteArgs lib D o w (Or.inr hnone) hp hconn hinfo hstop himgs, hsel]
  · intro id
    simp only [List.mem_map, List.mem_filter, decide_eq_true_eq]
    constructor
    · rintro ⟨i, ⟨hi, htag⟩, hid⟩; exact ⟨i, hi, hid, htag⟩
    · rintro ⟨i, hi, hid, htag⟩; exact ⟨i, ⟨hi, htag⟩, hid⟩
  · rw [(main_clean_removeCalls lib D o w (Or.inr hnone) hp hconn hinfo hstop himgs).1, hsel]

/-- C3 at the cases of the claim, without `-yes` and the line `yes`: of the
images tagged with the one sentinel, the sentinel next to `myrepo:latest`,
no tag and `myrepo:latest` alone, only the first is handed to `deleteImage`
and removed. -/
theorem main_delete_list_untagged_witness :
    deleteArgs (main hmsLib simDaemon ⟨"", true, "", "unix:///var/run/docker.sock", false⟩
      ⟨tagSim, "yes\n".data⟩).events = [["a"]] ∧
    removeCalls (main hmsLib simDaemon ⟨"", true, "", "unix:///var/run/docker.sock", false⟩
      ⟨tagSim, "yes\n".data⟩).events = ["a"] :=
  have h := main_delete_list_untagged hmsLib simDaemon
    ⟨"", true, "", "unix:///var/run/docker.sock", false⟩ ⟨tagSim, "yes\n".data⟩ 7200
    tagSim.images tagSim tagSim tagSim rfl rfl rfl rfl (by decide) (by decide)
  ⟨h.1.trans (by decide), h.2.2.trans (by decide)⟩

theorem mem_oldImageIds {t d : Int} {images : List Image} {i : Image} (hi : i ∈ images)
    (h : subInt64 t i.Created > d) : i.Id ∈ oldImageIds t d images :=
  List.mem_map.2 ⟨i, List.mem_filter.2 ⟨hi, by simpa using h⟩, rfl⟩

theorem mem_untaggedIds {images : List Image} {i : Image} (hi : i ∈ images)
    (h : i.RepoTags = ["<none>:<none>"]) : i.Id ∈ untaggedIds images :=
  List.mem_map.2 ⟨i, List.mem_filter.2 ⟨hi, by simpa using h⟩, rfl⟩

theorem nodup_oldImageIds {t d : Int} {images : List Image}
    (h : (images.map Image.Id).Nodup) : (oldImageIds t d images).Nodup :=
  List.Nodup.sublist (List.Sublist.map _ (List.filter_sublist _)) h

theorem nodup_untaggedIds {images : List Image}
    (h : (images.map Image.Id).Nodup) : (untaggedIds images).Nodup :=
  List.Nodup.sublist (List.Sublist.map _ (List.filter_sublist _)) h

theorem Shape.failures_nil {K : List Kind} {l : List Event} (h : Shape K l)
    (h1 : Kind.stopContainer ∉ K) (h2 : Kind.removeImage ∉ K) : failures l = [] :=
  failures_eq_nil (fun e he => ⟨h.kind_ne h1 e he, h.kind_ne h2 e he⟩)

theorem stopOld_logged (lib : Lib) (D : Daemon σ) (o : Options) (t : Int) (w : World σ) :
    loggedErrors (stopOldContainers lib D o t w).events =
      failures (stopOldContainers lib D o t w).events := by
  by_cases h : o.stopOld = ""
  · rw [stopOld_unset _ _ _ _ _ h]; rfl
  · rcases hp : (lib.parseDuration o.stopOld).2 with _ | e
    · rcases hl : (D.listContainers false false "" w.daemon).1.2 with _ | e
      · rw [stopOld_ok _ _ _ _ _ h hp hl]
        simp only [loggedErrors_append, failures_append, loggedErrors_selectContainers,
          stopCotainers_loggedErrors, loggedErrors_logErrors,
          (shape_selectContainers _ _ _ _).failures_nil (by decide) (by decide),
          (shape_logErrors _).failures_nil (by decide) (by decide), stopCotainers_val]
        simp [loggedErrors, failures, Event.failure]
      · rw [stopOld_listErr _ _ _ _ _ h hp hl]; rfl
    · rw [stopOld_parseErr _ _ _ _ _ h hp]; rfl

theorem deleteSelected_logged (D : Daemon σ) (o : Options) (images : List Image)
    (toDelete : List String) (w : World σ) :
    loggedErrors (deleteSelected D o images toDelete w).events =
      failures (deleteSelected D o images toDelete w).events := by
  by_cases h : o.cleanOld ≠ "" ∨ o.cleanNone = true
  · obtain ⟨logs, hs, hl, he⟩ := deleteSelected_events D o images toDelete w h
    rw [he]
    simp only [loggedErrors_append, failures_append, hl, deleteImage_loggedErrors,
      loggedErrors_logErrors, hs.failures_nil (by decide) (by decide),
      (shape_logErrors _).failures_nil (by decide) (by decide), deleteImage_val]
    simp
  · rw [not_or, not_not, Bool.not_eq_true] at h
    rw [deleteSelected_idle _ _ _ _ _ h.1 h.2]; rfl

theorem cleanListed_logged (lib : Lib) (D : Daemon σ) (o : Options) (t : Int)
    (images : List Image) (w : World σ) :
    loggedErrors (cleanListed lib D o t images w).events =
      failures (cleanListed lib D o t images w).events := by
  by_cases h : o.cleanOld = ""
  · rw [cleanListed_unset _ _ _ _ _ _ h]; exact deleteSelected_logged _ _ _ _ _
  · rcases hp : (lib.parseDuration o.cleanOld).2 with _ | e
    · rw [cleanListed_ok _ _ _ _ _ _ h hp]
      simp only [loggedErrors_append, failures_append, loggedErrors_selectOldImages,
        (shape_selectOldImages _ _ _ _ _).failures_nil (by decide) (by decide),
        deleteSelected_logged]
    · rw [cleanListed_parseErr _ _ _ _ _ _ h hp]; rfl

theorem cleanImages_logged (lib : Lib) (D : Daemon σ) (o : Options) (t : Int) (w : World σ) :
    loggedErrors (cleanImages lib D o t w).events =
      failures (cleanImages lib D o t w).events := by
  by_cases h : o.cleanOld ≠ "" ∨ o.cleanNone = true
  · rcases hl : (D.listImages w.daemon).1.2 with _ | e
    · rw [cleanImages_ok _ _ _ _ _ h hl, loggedErrors_cons, failures_cons, cleanListed_logged]
      rfl
    · rw [cleanImages_listErr _ _ _ _ _ h hl]; rfl
  · rw [not_or, not_not, Bool.not_eq_true] at h
    rw [cleanImages_idle _ _ _ _ _ h.1 h.2]; rfl

theorem cleanup_logged (lib : Lib) (D : Daemon σ) (o : Options) (t : Int) (w : World σ) :
    loggedErrors (cleanup lib D o t w).events = failures (cleanup lib D o t w).events := by
  rcases h : (stopOldContainers lib D o t w).val
  · rw [cleanup_returned _ _ _ _ _ h, loggedErrors_append, failures_append, stopOld_logged,
      cleanImages_logged]
  · rw [cleanup_fatal _ _ _ _ _ h]; exact stopOld_logged _ _ _ _ _

/-- The errors `main` logs with `log.Printf` are exactly the errors of the
failing stop and remove calls, in call order. -/
theorem main_logged (lib : Lib) (D : Daemon σ) (o : Options) (w : World σ) :
    loggedErrors (main lib D o w).events = failures (main lib D o w).events := by
  unfold main
  split
  · rfl
  · rcases hc : (D.newDockerClient o.dockerURL w.daemon).1 with _ | e
    · simp only [hc]
      rcases hi : (D.info (D.newDockerClient o.dockerURL w.daemon).2).1.2 with _ | e
      · simp only [hi]
        rw [loggedErrors_cons _ (_ :: _), loggedErrors_cons _ (cleanup _ _ _ _ _).events,
          failures_cons _ (_ :: _), failures_cons _ (cleanup _ _ _ _ _).events, cleanup_logged]
        rfl
      · simp only [hi]; rfl
    · simp only [hc]; rfl

/-- C8, as stated, fails: with `-clean-old 30m` and `-clean-none` both set,
no `-yes` and the line `no` at the prompt, the image `i1`, old and untagged,
is in the list handed to `deleteImage` twice, yet `RemoveImage` is called on
it not twice but never, and the daemon keeps all its images. -/
theorem main_delete_list_both_counterexample :
    deleteArgs (main hmsLib simDaemon ⟨"30m", true, "", "unix:///var/run/docker.sock", false⟩
      ⟨sampleSim, "no\n".data⟩).events = [["i1", "i1", "i3"]] ∧
    removeCalls (main hmsLib simDaemon ⟨"30m", true, "", "unix:///var/run/docker.sock", false⟩
      ⟨sampleSim, "no\n".data⟩).events = [] ∧
    (main hmsLib simDaemon ⟨"30m", true, "", "unix:///var/run/docker.sock", false⟩
      ⟨sampleSim, "no\n".data⟩).world.daemon.images = sampleSim.images := by
  decide

/-- C8, amended: in every run of `main` with `-clean-old` (well formed) and
`-clean-none` both set in which the connection succeeds, the daemon reports
the time `t`, the stop phase does not abort and the daemon returns the
listing `images`: `deleteImage` is handed the ids under the age rule in
listing order followed by the ids under the untagged rule in listing order,
without deduplication, so an image under both rules is in the list at least
twice, exactly twice when the ids of the listing are distinct.  When the
deletion runs, that is with `-yes` or when the first word read at the delete
prompt is `yes`, `RemoveImage` is called on exactly that list, so twice on
such an image and on every id after it, whatever the calls return, each on
the daemon state the call before left; the errors the daemon returned to
the failing removals are the last errors logged.  Otherwise `RemoveImage` is
not called and the daemon is left as listed.  The errors logged are the
errors of the failing calls, and `main` returns. -/
theorem main_delete_list_both (lib : Lib) (D : Daemon σ) (o : Options) (w : World σ) (t : Int)
    (images : List Image) (d1 d2 d4 : σ)
    (hold : o.cleanOld ≠ "") (hnone : o.cleanNone = true)
    (hp : (lib.parseDuration o.cleanOld).2 = none)
    (hconn : D.newDockerClient o.dockerURL w.daemon = (none, d1))
    (hinfo : D.info d1 = ((t, none), d2))
    (hstop : o.stopOld ≠ "" → (lib.parseDuration o.stopOld).2 = none ∧
      (D.listContainers false false "" d2).1.2 = none)
    (himgs : D.listImages (worldAfterStop lib D o t ⟨d2, w.stdin⟩).daemon =
      ((images, none), d4)) :
    deleteArgs (main lib D o w).events =
      [oldImageIds t (lib.seconds (lib.parseDuration o.cleanOld).1) images ++
        untaggedIds images] ∧
    (∀ i ∈ images, subInt64 t i.Created > lib.seconds (lib.parseDuration o.cleanOld).1 →
      i.RepoTags = ["<none>:<none>"] →
      2 ≤ (oldImageIds t (lib.seconds (lib.parseDuration o.cleanOld).1) images ++
        untaggedIds images).count i.Id) ∧
    ((images.map Image.Id).Nodup → ∀ i ∈ images,
      subInt64 t i.Created > lib.seconds (lib.parseDuration o.cleanOld).1 →
      i.RepoTags = ["<none>:<none>"] →
      (oldImageIds t (lib.seconds (lib.parseDuration o.cleanOld).1) images ++
        untaggedIds images).count i.Id = 2) ∧
    removeCalls (main lib D o w).events =
      (if o.noConfirm = true ∨
          firstWord (worldAfterStop lib D o t ⟨d2, w.stdin⟩).stdin = "yes" then
        oldImageIds t (lib.seconds (lib.parseDuration o.cleanOld).1) images ++
          untaggedIds images
      else []) ∧
    (main lib D o w).world.daemon =
      (if o.noConfirm = true ∨
          firstWord (worldAfterStop lib D o t ⟨d2, w.stdin⟩).stdin = "yes" then
        removeAll D (oldImageIds t (lib.seconds (lib.parseDuration o.cleanOld).1) images ++
          untaggedIds images) d4
      else d4) ∧
    (if o.noConfirm = true ∨
          firstWord (worldAfterStop lib D o t ⟨d2, w.stdin⟩).stdin = "yes" then
        removeErrors D (oldImageIds t (lib.seconds (lib.parseDuration o.cleanOld).1) images ++
          untaggedIds images) d4
      else []) <:+ loggedErrors (main lib D o w).events ∧
    loggedErrors (main lib D o w).events = failures (main lib D o w).events ∧
    (main lib D o w).val = Exit.returned := by
  have hsel : selectedImages lib o t images =
      oldImageIds t (lib.seconds (lib.parseDuration o.cleanOld).1) images ++
        untaggedIds images := by
    simp [selectedImages, hold, hnone, oldImageIds, untaggedIds]
  have hrun := main_clean_run lib D o w (Or.inl hold) (fun _ => hp) hconn hinfo hstop himgs
  have hrem := main_clean_removeCalls lib D o w (Or.inl hold) (fun _ => hp) hconn hinfo
    hstop himgs
  rw [hsel] at hrem
  refine ⟨?_, ?_, ?_, hrem.1, hrem.2, ?_, main_logged lib D o w, hrun.1⟩
  · rw [main_clean_deleteArgs lib D o w (Or.inl hold) (fun _ => hp) hconn hinfo hstop himgs,
      hsel]
  · intro i hi hage htag
    rw [List.count_append]
    have h1 := List.one_le_count_iff.2 (mem_oldImageIds hi hage)
    have h2 := List.one_le_count_iff.2 (mem_untaggedIds hi htag)
    omega
  · intro hnd i hi hage htag
    rw [List.count_append,
      List.count_eq_one_of_mem (nodup_oldImageIds hnd) (mem_oldImageIds hi hage),
      List.count_eq_one_of_mem (nodup_untaggedIds hnd) (mem_untaggedIds hi htag)]
  · obtain ⟨_, _, pre, _, hev⟩ := hrun
    rw [hev, loggedErrors_append, loggedErrors_append, deleteImage_loggedErrors,
      loggedErrors_logErrors, (deleteImage_effect D _ _ _).2.1, hsel, List.append_nil]
    exact List.suffix_append _ _

/-- C8, amended, at a sample: `i1` is old and untagged, `i3` untagged only,
so `deleteImage` is handed `i1, i1, i3`.  Confirmed at the prompt (no `-yes`,
the line `yes`) as with `-yes`, the second removal of `i1` fails, its error
is logged, and `i3` is removed all the same: only `i2` is left. -/
theorem main_delete_list_both_witness :
    deleteArgs (main hmsLib simDaemon ⟨"30m", true, "", "unix:///var/run/docker.sock", false⟩
      ⟨sampleSim, "yes\n".data⟩).events = [["i1", "i1", "i3"]] ∧
    removeCalls (main hmsLib simDaemon ⟨"30m", true, "", "unix:///var/run/docker.sock", false⟩
      ⟨sampleSim, "yes\n".data⟩).events = ["i1", "i1", "i3"] ∧
    (main hmsLib simDaemon ⟨"30m", true, "", "unix:///var/run/docker.sock", false⟩
      ⟨sampleSim, "yes\n".data⟩).world.daemon.images = [⟨"i2", 7000, ["myrepo:latest"]⟩] ∧
    loggedErrors (main hmsLib simDaemon
      ⟨"30m", true, "", "unix:///var/run/docker.sock", false⟩
      ⟨sampleSim, "yes\n".data⟩).events = ["No such image: i1"] ∧
    removeCalls (main hmsLib simDaemon ⟨"30m", true, "", "unix:///var/run/docker.sock", true⟩
      ⟨sampleSim, []⟩).events = ["i1", "i1", "i3"] :=
  have h := main_delete_list_both hmsLib simDaemon
    ⟨"30m", true, "", "unix:///var/run/docker.sock", false⟩ ⟨sampleSim, "yes\n".data⟩ 7200
    sampleSim.images sampleSim sampleSim sampleSim (by decide) rfl (by decide) rfl rfl
    (by decide) (by decide)
  have h' := main_delete_list_both hmsLib simDaemon
    ⟨"30m", true, "", "unix:///var/run/docker.sock", true⟩ ⟨sampleSim, []⟩ 7200
    sampleSim.images sampleSim sampleSim sampleSim (by decide) rfl (by decide) rfl rfl
    (by decide) (by decide)
  ⟨h.1.trans (by decide), h.2.2.2.1.trans (by decide),
    by rw [h.2.2.2.2.1]; decide, h.2.2.2.2.2.2.1.trans (by decide),
    h'.2.2.2.1.trans (by decide)⟩

theorem stopOld_returned_of_ok (lib : Lib) (D : Daemon σ) (o : Options) (t : Int)
    (w : World σ) (hp : o.stopOld ≠ "" → (lib.parseDuration o.stopOld).2 = none)
    (hok : ∀ e ∈ (stopOldContainers lib D o t w).events, e.fatalFailure = false) :
    (stopOldContainers lib D o t w).val = Exit.returned := by
  by_cases h : o.stopOld = ""
  · rw [stopOld_unset _ _ _ _ _ h]
  · rcases hl : (D.listContainers false false "" w.daemon).1.2 with _ | e
    · rw [stopOld_ok _ _ _ _ _ h (hp h) hl]
    · rw [stopOld_listErr _ _ _ _ _ h (hp h) hl] at hok
      have := hok _ (List.mem_cons_of_mem _ (List.mem_cons_self _ _))
      simp [Event.fatalFailure] at this

theorem cleanImages_returned_of_ok (lib : Lib) (D : Daemon σ) (o : Options) (t : Int)
    (w : World σ) (hp : o.cleanOld ≠ "" → (lib.parseDuration o.cleanOld).2 = none)
    (hok : ∀ e ∈ (cleanImages lib D o t w).events, e.fatalFailure = false) :
    (cleanImages lib D o t w).val = Exit.returned := by
  by_cases h : o.cleanOld ≠ "" ∨ o.cleanNone = true
  · rcases hl : (D.listImages w.daemon).1.2 with _ | e
    · rw [cleanImages_ok _ _ _ _ _ h hl]
      exact (cleanListed_events lib D o t _ _ h hp).1
    · rw [cleanImages_listErr _ _ _ _ _ h hl] at hok
      have := hok _ (List.mem_cons_self _ _)
      simp [Event.fatalFailure] at this
  · rw [not_or, not_not, Bool.not_eq_true] at h
    rw [cleanImages_idle _ _ _ _ _ h.1 h.2]

theorem cleanup_returned_of_ok (lib : Lib) (D : Daemon σ) (o : Options) (t : Int)
    (w : World σ) (hs : o.stopOld ≠ "" → (lib.parseDuration o.stopOld).2 = none)
    (hc : o.cleanOld ≠ "" → (lib.parseDuration o.cleanOld).2 = none)
    (hok : ∀ e ∈ (cleanup lib D o t w).events, e.fatalFailure = false) :
    (cleanup lib D o t w).val = Exit.returned := by
  rcases hv : (stopOldContainers lib D o t w).val
  · rw [cleanup_returned _ _ _ _ _ hv] at hok ⊢
    exact cleanImages_returned_of_ok lib D o t _ hc
      (fun e he => hok e (List.mem_append_right _ he))
  · rw [cleanup_fatal _ _ _ _ _ hv] at hok
    rw [stopOld_returned_of_ok lib D o t w hs hok] at hv
    cases hv

/-- C6, as stated, fails: with well-formed durations, a successful
connection and a successful system-time query, `main` still ends with
`log.Fatalf` when `ListContainers` fails, and when `ListImages` fails. -/
theorem main_exit_counterexample :
    (hmsLib.parseDuration "30m").2 = none ∧
    Event.newDockerClient "unix:///var/run/docker.sock" none ∈
      (main hmsLib noListDaemon ⟨"", false, "30m", "unix:///var/run/docker.sock", true⟩
        ⟨sampleSim, []⟩).events ∧
    Event.info 7200 none ∈
      (main hmsLib noListDaemon ⟨"", false, "30m", "unix:///var/run/docker.sock", true⟩
        ⟨sampleSim, []⟩).events ∧
    (main hmsLib noListDaemon ⟨"", false, "30m", "unix:///var/run/docker.sock", true⟩
      ⟨sampleSim, []⟩).val = Exit.fatal ∧
    (main hmsLib noListDaemon ⟨"30m", false, "", "unix:///var/run/docker.sock", true⟩
      ⟨sampleSim, []⟩).val = Exit.fatal ∧
    (main hmsLib noListDaemon ⟨"", true, "", "unix:///var/run/docker.sock", true⟩
      ⟨sampleSim, []⟩).val = Exit.fatal := by
  decide

/-- C6, amended: `main` ends with a nonzero exit only on a malformed
duration, a failed connection, a failed system-time query or a failed
listing of containers or images: in every run in which the durations that
are set parse and none of these daemon calls fails, `main` returns, whatever
the stop and remove calls return. -/
theorem main_returns (lib : Lib) (D : Daemon σ) (o : Options) (w : World σ)
    (hstop : o.stopOld ≠ "" → (lib.parseDuration o.stopOld).2 = none)
    (hclean : o.cleanOld ≠ "" → (lib.parseDuration o.cleanOld).2 = none)
    (hok : ∀ e ∈ (main lib D o w).events, e.fatalFailure = false) :
    (main lib D o w).val = Exit.returned := by
  unfold main at hok ⊢
  split
  · rfl
  · rename_i hact
    rw [if_neg hact] at hok
    rcases hc : (D.newDockerClient o.dockerURL w.daemon).1 with _ | e
    · simp only [hc] at hok ⊢
      rcases hi : (D.info (D.newDockerClient o.dockerURL w.daemon).2).1.2 with _ | e
      · simp only [hi] at hok ⊢
        exact cleanup_returned_of_ok lib D o _ _ hstop hclean
          (fun e he => hok e (List.mem_cons_of_mem _ (List.mem_cons_of_mem _ he)))
      · simp only [hi] at hok
        have := hok _ (List.mem_cons_of_mem _ (List.mem_cons_self _ _))
        simp [Event.fatalFailure] at this
    · simp only [hc] at hok
      have := hok _ (List.mem_cons_self _ _)
      simp [Event.fatalFailure] at this

/-- C6, amended, at a sample with `-yes`: the stop of `c1` succeeds, the
second removal of `i1` fails, and `main` returns. -/
theorem main_returns_witness :
    (main hmsLib simDaemon ⟨"30m", true, "30m", "unix:///var/run/docker.sock", true⟩
      ⟨sampleSim, []⟩).val = Exit.returned ∧
    failures (main hmsLib simDaemon ⟨"30m", true, "30m", "unix:///var/run/docker.sock", true⟩
      ⟨sampleSim, []⟩).events = ["No such image: i1"] :=
  ⟨main_returns hmsLib simDaemon ⟨"30m", true, "30m", "unix:///var/run/docker.sock", true⟩
    ⟨sampleSim, []⟩ (by decide) (by decide) (by decide), by decide⟩


/-- C10: durations are validated in program order.  In every run of `main`
with `-yes`, a well-formed `-stop-old` and a malformed `-clean-old` in which
the connection succeeds, the daemon reports the time `t` and the container
listing `running`, and the image listing succeeds: the daemon operations
are connect, `Info`, `ListContainers`, `StopContainer(id, 10)` for every
container the age rule selects, in listing order, and `ListImages`; the
daemon is left as after these stops and the listing; then the run ends with
`log.Fatalf` on the error of the `-clean-old` string, and no `RemoveImage`
call is issued. -/
theorem main_lazy_validation (lib : Lib) (D : Daemon σ) (o : Options) (w : World σ) (t : Int)
    (running : List Container) (err : GoError) (d1 d2 d3 : σ)
    (hyes : o.noConfirm = true)
    (hset : o.stopOld ≠ "") (hp : (lib.parseDuration o.stopOld).2 = none)
    (hold : o.cleanOld ≠ "") (hbad : (lib.parseDuration o.cleanOld).2 = some err)
    (hconn : D.newDockerClient o.dockerURL w.daemon = (none, d1))
    (hinfo : D.info d1 = ((t, none), d2))
    (hlist : D.listContainers false false "" d2 = ((running, none), d3))
    (himgs : (D.listImages (stopAll D
      (oldContainerIds t (lib.seconds (lib.parseDuration o.stopOld).1) running) d3)).1.2 =
        none) :
    calls (main lib D o w).events =
      [Call.newDockerClient o.dockerURL, Call.info, Call.listContainers false false ""] ++
      ((running.filter (fun c => decide (subInt64 t c.Created >
          lib.seconds (lib.parseDuration o.stopOld).1))).map Container.Id).map
        (fun id => Call.stopContainer id 10) ++
      [Call.listImages] ∧
    (main lib D o w).world.daemon =
      (D.listImages (stopAll D
        ((running.filter (fun c => decide (subInt64 t c.Created >
          lib.seconds (lib.parseDuration o.stopOld).1))).map Container.Id) d3)).2 ∧
    (main lib D o w).events.getLast? = some (Event.logFatalf "%v" [Val.err err]) ∧
    (main lib D o w).val = Exit.fatal ∧
    removeCalls (main lib D o w).events = [] := by
  have hact : ¬ (o.cleanNone = false ∧ o.cleanOld = "" ∧ o.stopOld = "") :=
    fun h => hset h.2.2
  have hrun := stopOld_run lib D o t ⟨d2, w.stdin⟩ hset hp hlist
  have hcu := cleanup_returned lib D o t ⟨d2, w.stdin⟩ (by rw [hrun])
  have hw : (stopOldContainers lib D o t ⟨d2, w.stdin⟩).world =
      ⟨stopAll D (oldContainerIds t (lib.seconds (lib.parseDuration o.stopOld).1) running)
        d3, w.stdin⟩ := by
    rw [hrun]
    show (stopCotainers D o.noConfirm _ _).world = _
    rw [(stopCotainers_effect D o.noConfirm _ _).1]
    simp [hyes]
  have hclean := cleanImages_ok lib D o t (stopOldContainers lib D o t ⟨d2, w.stdin⟩).world
    (Or.inl hold) (by rw [hw]; exact himgs)
  rw [cleanListed_parseErr _ _ _ _ _ _ hold hbad, hw] at hclean
  have hcalls : calls (stopOldContainers lib D o t ⟨d2, w.stdin⟩).events =
      Call.listContainers false false "" ::
        (oldContainerIds t (lib.seconds (lib.parseDuration o.stopOld).1) running).map
          (fun id => Call.stopContainer id 10) := by
    rw [hrun]
    simp only [calls_append, stopCotainers_calls, hyes, true_or, if_true]
    rw [calls_eq_nil ((shape_selectContainers _ _ _ _).mono (by simp)),
      calls_eq_nil ((shape_logErrors _).mono (by simp))]
    simp [calls, Event.call]
  rw [main_run lib D o w hact hconn hinfo, hcu, hw, hclean]
  refine ⟨?_, rfl, ?_, rfl, ?_⟩
  · rw [calls_cons _ (_ :: _), calls_cons _ (_ ++ _), calls_append, hcalls]
    simp [calls, Event.call, oldContainerIds]
  · have hsplit : ∀ (a b x y : Event) (l : List Event),
        a :: b :: (l ++ [x, y]) = (a :: b :: (l ++ [x])) ++ [y] := by
      intro a b x y l; simp
    rw [hsplit, List.getLast?_concat]
  · rw [removeCalls_cons _ (_ :: _), removeCalls_cons _ (_ ++ _), removeCalls_append,
      removeCalls_eq_nil ((shape_stopOldContainers _ _ _ _ _).kind_ne (by decide))]
    rfl

/-- C10 at a sample: `-stop-old 30m` and the malformed `-clean-old 1day`,
without and with `-clean-none`; the container `c1` is stopped at the
daemon, then the run ends on the `-clean-old` error without removing an
image. -/
theorem main_lazy_validation_witness :
    calls (main hmsLib simDaemon ⟨"1day", false, "30m", "unix:///var/run/docker.sock", true⟩
      ⟨sampleSim, []⟩).events =
      [Call.newDockerClient "unix:///var/run/docker.sock", Call.info,
        Call.listContainers false false "", Call.stopContainer "c1" 10, Call.listImages] ∧
    (main hmsLib simDaemon ⟨"1day", false, "30m", "unix:///var/run/docker.sock", true⟩
      ⟨sampleSim, []⟩).val = Exit.fatal ∧
    (main hmsLib simDaemon ⟨"1day", false, "30m", "unix:///var/run/docker.sock", true⟩
      ⟨sampleSim, []⟩).world.daemon = ⟨7200, [], sampleSim.images⟩ ∧
    calls (main hmsLib simDaemon ⟨"1day", true, "30m", "unix:///var/run/docker.sock", true⟩
      ⟨sampleSim, []⟩).events =
      [Call.newDockerClient "unix:///var/run/docker.sock", Call.info,
        Call.listContainers false false "", Call.stopContainer "c1" 10, Call.listImages] ∧
    (main hmsLib simDaemon ⟨"1day", true, "30m", "unix:///var/run/docker.sock", true⟩
      ⟨sampleSim, []⟩).val = Exit.fatal :=
  have h := main_lazy_validation hmsLib simDaemon
    ⟨"1day", false, "30m", "unix:///var/run/docker.sock", true⟩ ⟨sampleSim, []⟩ 7200
    sampleSim.containers "time: invalid duration 1day" sampleSim sampleSim sampleSim rfl
    (by decide) (by decide) (by decide) (by decide) rfl rfl rfl (by decide)
  have h' := main_lazy_validation hmsLib simDaemon
    ⟨"1day", true, "30m", "unix:///var/run/docker.sock", true⟩ ⟨sampleSim, []⟩ 7200
    sampleSim.containers "time: invalid duration 1day" sampleSim sampleSim sampleSim rfl
    (by decide) (by decide) (by decide) (by decide) rfl rfl rfl (by decide)
  ⟨h.1.trans (by decide), h.2.2.2.1, h.2.1.trans (by decide), h'.1.trans (by decide),
    h'.2.2.2.1⟩

end Dockercleaner
